import Mathlib

/-!
Verification of the mailspire/spf SPF checker (RFC 7208 subset).

The Go sources are shallowly embedded over `List Char` strings.  Go standard
library string helpers (`strings.*`, `net.ParseCIDR`, `strconv.Atoi`) and the
external `golang.org/x/net/idna` normalisation are modelled as executable Lean
functions; each model carries a doc comment naming the function it mirrors and
the simplifications made.
-/

deriving instance DecidableEq for Except

namespace SPF

/-- Strings are modelled as lists of characters (Go byte strings restricted to
the inputs the claims exercise). -/
abbrev Str := List Char

/-- Model of Go `unicode.IsSpace` restricted to the ASCII whitespace characters
(space, tab, newline, vertical tab, form feed, carriage return).  The Unicode
space classes beyond ASCII are not modelled. -/
def isSpaceGo (c : Char) : Bool :=
  c = ' ' || c = '\t' || c = '\n' || c = '\x0b' || c = '\x0c' || c = '\r'

/-- Model of Go `strings.ToLower` via Lean's ASCII `Char.toLower`; the Unicode
case mappings beyond ASCII are not modelled. -/
def toLowerGo (s : Str) : Str := s.map Char.toLower

/-- Model of Go `strings.HasPrefix s p`. -/
def hasPrefixGo (s p : Str) : Bool := List.isPrefixOf p s

/-- Model of Go `strings.TrimPrefix s p`. -/
def trimPrefixGo (s p : Str) : Str :=
  if hasPrefixGo s p then s.drop p.length else s

/-- Model of Go `strings.TrimSuffix s p`. -/
def trimSuffixGo (s p : Str) : Str :=
  if List.isSuffixOf p s then s.take (s.length - p.length) else s

/-- Model of Go `strings.TrimSpace`. -/
def trimSpaceGo (s : Str) : Str :=
  ((s.dropWhile isSpaceGo).reverse.dropWhile isSpaceGo).reverse

/-- Model of Go `strings.Trim s cutset` for a concrete cutset list. -/
def trimCutsetGo (cut : Str) (s : Str) : Str :=
  ((s.dropWhile (fun c => cut.contains c)).reverse.dropWhile
      (fun c => cut.contains c)).reverse

/-- Auxiliary recursion for `fieldsGo`; the fuel dominates the number of
characters left, so the recursion is structural and kernel-reducible. -/
def fieldsGoAux : Nat → Str → List Str
  | 0, _ => []
  | _ + 1, [] => []
  | fuel + 1, c :: rest =>
    if isSpaceGo c then fieldsGoAux fuel rest
    else (c :: rest.takeWhile (fun x => !isSpaceGo x))
        :: fieldsGoAux fuel (rest.dropWhile (fun x => !isSpaceGo x))

/-- Model of Go `strings.Fields`: whitespace-separated maximal runs of
non-space characters. -/
def fieldsGo (s : Str) : List Str := fieldsGoAux (s.length + 1) s

/-- Model of Go `strings.Split s sep` for a single-character separator. -/
def splitOnCharGo (sep : Char) : Str → List Str
  | [] => [[]]
  | c :: rest =>
    if c = sep then [] :: splitOnCharGo sep rest
    else
      match splitOnCharGo sep rest with
      | [] => [[c]]
      | p :: ps => (c :: p) :: ps

/-- Model of Go `strings.Cut s sep` for a single-character separator: the part
before the first occurrence and the part after it (empty when absent, matching
how the callers use the result). -/
def goCut (s : Str) (sep : Char) : Str × Str :=
  match s with
  | [] => ([], [])
  | c :: rest =>
    if c = sep then ([], rest)
    else
      let p := goCut rest sep
      (c :: p.1, p.2)

/-- Model of Go `strings.ContainsRune` for our list strings. -/
def containsRuneGo (s : Str) (c : Char) : Bool := s.contains c

/-- Model of Go `strings.IndexByte s '@'`: index of the first occurrence. -/
def indexAtSign : Str → Option Nat
  | [] => none
  | c :: rest =>
    if c = '@' then some 0 else (indexAtSign rest).map (· + 1)

/-- ASCII decimal digit test, as used by the Go `net` and `strconv` parsers. -/
def isDigitGo (c : Char) : Bool := '0' ≤ c && c ≤ '9'

/-- Numeric value of a digit string (callers check the digit property). -/
def digitsToNat (s : Str) : Nat :=
  s.foldl (fun acc c => acc * 10 + (c.toNat - '0'.toNat)) 0

/-! ## Domain validation (spf.go `ValidateDomain`, `localPart`) -/

/-- Errors returned by `ValidateDomain` (spf.go lines 31-37).  The source
declares exactly these five sentinels and no other. -/
inductive DomainErr where
  | singleLabel
  | emptyLabel
  | labelTooLong
  | domainTooLong
  | idnaConversion
deriving DecidableEq

/-- STD3 label character test of the external `golang.org/x/net/idna` Lookup
profile: ASCII letter, digit, or hyphen. -/
def isSTD3 (c : Char) : Bool :=
  ('a' ≤ c && c ≤ 'z') || ('A' ≤ c && c ≤ 'Z') || ('0' ≤ c && c ≤ '9') || c = '-'

/-- Hyphen placement test of the idna Lookup profile (UTS 46 CheckHyphens,
restricted to the leading/trailing rule): a label must not begin or end with
a hyphen. -/
def labelHyphensOk (l : Str) : Bool :=
  !(l.head? = some '-') && !(l.getLast? = some '-')

/-- Model of the external `idna.Lookup.ToASCII` (golang.org/x/net/idna), an
out-of-scope collaborator of the repository.  Faithful for ASCII inputs: the
Lookup profile enforces the STD3 character rules (letters, digits, hyphen)
and rejects labels with a leading or trailing hyphen, and maps letters to
lower case.  Simplifications: non-ASCII input is conservatively rejected
(real idna maps it to punycode), ACE (`xn--`) labels are passed through
without punycode validation, and the hyphen-in-positions-3-4 rule is not
modelled. -/
def idnaLookupToASCII (s : Str) : Option Str :=
  if !(s.all fun c => isSTD3 c || c = '.') then none
  else if !((splitOnCharGo '.' s).all labelHyphensOk) then none
  else some (toLowerGo s)

/-- Per-label length checks of `ValidateDomain` (spf.go lines 183-193), in
source order: the first empty label reports `ErrEmptyLabel`, the first label
over 63 octets reports `ErrLabelTooLong`. -/
def checkLabels : List Str → Option DomainErr
  | [] => none
  | l :: rest =>
    if l.length = 0 then some .emptyLabel
    else if l.length > 63 then some .labelTooLong
    else checkLabels rest

/-- Embedding of `ValidateDomain` (spf.go lines 161-196): trim whitespace,
strip one trailing dot, convert via the idna Lookup profile, lower-case, then
check overall length, label count and per-label lengths. -/
def ValidateDomain (raw : Str) : Except DomainErr Str :=
  let raw1 := trimSpaceGo raw
  let raw2 := trimSuffixGo raw1 ".".data
  match idnaLookupToASCII raw2 with
  | none => .error .idnaConversion
  | some a =>
    let ascii := toLowerGo a
    if ascii.length > 255 then .error .domainTooLong
    else
      let labels := splitOnCharGo '.' ascii
      if labels.length < 2 then .error .singleLabel
      else
        match checkLabels labels with
        | some e => .error e
        | none => .ok ascii

/-- Embedding of `localPart` (spf.go lines 200-208): strip surrounding angle
brackets, return the part before `@` when `@` is present and not first,
otherwise the literal `postmaster`. -/
def localPart (sender : Str) : Str :=
  let s := trimCutsetGo "<>".data sender
  match indexAtSign s with
  | some i => if 0 < i then s.take i else "postmaster".data
  | none => "postmaster".data

/-! ## Record grammar: tokenizer and term parsers (spf.go part 2) -/

/-- Mechanism-level parse failures.  Each constructor corresponds to one
`fmt.Errorf` site in the source parsers. -/
inductive MechErr where
  | notAll
  | noMatch
  | badIPCidr
  | cidrOutOfRange
  | tooManySlashSegments
  | badADomain
  | invalidASyntax
  | badMXDomain
  | invalidMXSyntax
deriving DecidableEq

/-- Top-level parse failures of `tokenizer`/`Parse`: the missing `v=spf1`
version error, the no-terms error, and mechanism errors wrapped as
`permerror: ...` (spf.go lines 285-287, 296-308). -/
inductive TopErr where
  | missingVersion
  | noTerms
  | permerror (e : MechErr)
deriving DecidableEq

/-- Embedding of `tokenizer` (spf.go lines 296-308): trim space, require the
lower-cased record to start with the prefix `v=spf1`, split into fields and
drop the first one; empty remainder is the no-terms error. -/
def tokenizer (raw : Str) : Except TopErr (List Str) :=
  let r := trimSpaceGo raw
  if !(hasPrefixGo (toLowerGo r) "v=spf1".data) then .error .missingVersion
  else
    let fields := (fieldsGo r).drop 1
    if fields = [] then .error .noTerms
    else .ok fields

/-! ## Model of Go `net.ParseCIDR` (external standard library) -/

/-- One decimal field of a dotted-quad IPv4 literal, per the Go `net`/`netip`
parser: one to three digits, no leading zero except `0` itself, value at most
255. -/
def parseV4Field (s : Str) : Option Nat :=
  if s = [] then none
  else if !(s.all isDigitGo) then none
  else if s.length > 3 then none
  else if s.length > 1 && s.head? = some '0' then none
  else
    let n := digitsToNat s
    if n ≤ 255 then some n else none

/-- Model of the Go IPv4 literal parser: exactly four dot-separated decimal
fields; returns the four bytes. -/
def parseIPv4go (s : Str) : Option (List Nat) :=
  match splitOnCharGo '.' s with
  | [a, b, c, d] =>
    match parseV4Field a with
    | none => none
    | some x =>
      match parseV4Field b with
      | none => none
      | some y =>
        match parseV4Field c with
        | none => none
        | some z =>
          match parseV4Field d with
          | none => none
          | some w => some [x, y, z, w]
  | _ => none

/-- Hexadecimal digit value, as accepted by the Go IPv6 parser: decimal
digits are offset from code point 48, lower-case letters from 87, upper-case
letters from 55. -/
def hexDigitVal (c : Char) : Option Nat :=
  if isDigitGo c then some (c.toNat - 48)
  else if 'a' ≤ c ∧ c ≤ 'f' then some (c.toNat - 87)
  else if 'A' ≤ c ∧ c ≤ 'F' then some (c.toNat - 55)
  else none

/-- Consume a run of hex digits for one 16-bit IPv6 group; `none` is the hard
error raised when the accumulated value exceeds `0xFFFF` (mirroring the Go
parser, which bounds the value rather than the digit count).  Returns the
value, the number of digits consumed, and the rest. -/
def grabHexAux : Str → Nat → Nat → Option (Nat × Nat × Str)
  | [], acc, n => some (acc, n, [])
  | c :: rest, acc, n =>
    match hexDigitVal c with
    | none => some (acc, n, c :: rest)
    | some v =>
      let acc' := acc * 16 + v
      if acc' > 0xFFFF then none else grabHexAux rest acc' (n + 1)

/-- Entry point for `grabHexAux`. -/
def grabHex (s : Str) : Option (Nat × Nat × Str) := grabHexAux s 0 0

/-- Completion step of the Go IPv6 parser after its main loop: expand the
`::` ellipsis (recorded as a group index) to the missing zero groups; exactly
eight groups must result, and a `::` that expands to zero groups is an
error. -/
def p6complete (groups : List Nat) (ell : Option Nat) : Option (List Nat) :=
  if groups.length = 8 then
    match ell with
    | none => some groups
    | some _ => none
  else
    match ell with
    | none => none
    | some k =>
      some (groups.take k ++ List.replicate (8 - groups.length) 0 ++ groups.drop k)

/-- Main loop of the Go IPv6 literal parser, fuelled for structural recursion
(each iteration consumes at least one character, so `length + 1` fuel always
suffices).  `groups` are the 16-bit groups parsed so far and `ell` the group
index of a `::` ellipsis if one was seen.  Mirrors the Go loop: a group is a
hex run; a group followed by `.` re-parses the whole remainder as a trailing
dotted-quad IPv4 (allowed only at group index 6, or after an ellipsis with at
most six groups so far); groups are separated by `:`; a lone trailing `:` is
an error; `::` may occur once. -/
def p6loop : Nat → Str → List Nat → Option Nat → Option (List Nat)
  | 0, _, _, _ => none
  | fuel + 1, s, groups, ell =>
    match grabHex s with
    | none => none
    | some (acc, nd, rest) =>
      if nd = 0 then none
      else if rest.head? = some '.' then
        if ell = none && groups.length ≠ 6 then none
        else if groups.length + 2 > 8 then none
        else
          match parseIPv4go s with
          | some [a, b, c, d] => p6complete (groups ++ [a * 256 + b, c * 256 + d]) ell
          | _ => none
      else
        let groups' := groups ++ [acc]
        match rest with
        | [] => p6complete groups' ell
        | c1 :: rest1 =>
          if c1 ≠ ':' then none
          else if rest1 = [] then none
          else
            match rest1 with
            | ':' :: rest2 =>
              if ell ≠ none then none
              else if rest2 = [] then p6complete groups' (some groups'.length)
              else if groups'.length = 8 then none
              else p6loop fuel rest2 groups' (some groups'.length)
            | _ =>
              if groups'.length = 8 then none
              else p6loop fuel rest1 groups' ell

/-- Model of the Go IPv6 literal parser: returns the eight 16-bit groups.
Zone suffixes (`%zone`) are not modelled (they are rejected by `ParseCIDR`
anyway, and `%` fails the hex/separator grammar here as well). -/
def parseIPv6go (s : Str) : Option (List Nat) :=
  match s with
  | ':' :: ':' :: rest =>
    if rest = [] then some (List.replicate 8 0)
    else p6loop (rest.length + 1) rest [] (some 0)
  | _ => p6loop (s.length + 1) s [] none

/-- An IP address as returned by the modelled `net.ParseCIDR`: four bytes for
a dotted-quad literal, eight 16-bit groups for an IPv6 literal. -/
inductive IPAddr where
  | v4 (bytes : List Nat)
  | v6 (groups : List Nat)
deriving DecidableEq

/-- Model of Go `net.IP.To4`: a parsed IPv4 literal, or an IPv6 literal whose
first five groups are zero and whose sixth group is `0xffff` (the IPv4-mapped
form), yields the four-byte form; every other IPv6 address yields `nil`. -/
def ipTo4 : IPAddr → Option (List Nat)
  | .v4 b => some b
  | .v6 g =>
    if g.take 5 = [0, 0, 0, 0, 0] && g.get? 5 = some 0xFFFF then
      match g.get? 6, g.get? 7 with
      | some h, some l => some [h / 256, h % 256, l / 256, l % 256]
      | _, _ => none
    else none

/-- Model of Go `net`'s internal `dtoi` as used by `ParseCIDR` on the mask
text, combined with `ParseCIDR`'s check that the whole mask was consumed:
a non-empty all-digit string whose value stays below the `dtoi` cap
`0xFFFFFF`. -/
def goDtoiFull (s : Str) : Option Nat :=
  if s = [] then none
  else if !(s.all isDigitGo) then none
  else
    let n := digitsToNat s
    if n < 0xFFFFFF then some n else none

/-- Keep the first `ones` bits of an IP address, zeroing the rest; this is
`IP.Mask(CIDRMask(ones, bits))` of the Go source, computed group-wise. -/
def maskGroups (width : Nat) (gs : List Nat) (ones : Nat) : List Nat :=
  (List.range gs.length).zipWith
    (fun i g =>
      let lo := i * width
      if lo + width ≤ ones then g
      else if ones ≤ lo then 0
      else g / 2 ^ (lo + width - ones) * 2 ^ (lo + width - ones))
    gs

/-- Apply a CIDR mask to a parsed address. -/
def maskAddr (ip : IPAddr) (ones : Nat) : IPAddr :=
  match ip with
  | .v4 b => .v4 (maskGroups 8 b ones)
  | .v6 g => .v6 (maskGroups 16 g ones)

/-- The `*net.IPNet` produced by `ParseCIDR`: the masked network address, the
prefix length (`Mask.Size()`'s `ones`), and the mask width in bits. -/
structure IPNet where
  ip : IPAddr
  ones : Nat
  bits : Nat
deriving DecidableEq

/-- Model of Go `net.ParseCIDR`: split at the first `/`; parse the address as
a dotted-quad IPv4 first and as an IPv6 literal otherwise; the mask is a
decimal prefix length bounded by the address family's bit width.  Returns the
parsed address together with the network. -/
def goParseCIDR (s : Str) : Option (IPAddr × IPNet) :=
  if containsRuneGo s '/' = false then none
  else
    match parseIPv4go (goCut s '/').1 with
    | some b =>
      match goDtoiFull (goCut s '/').2 with
      | some n => if n ≤ 32 then some (.v4 b, ⟨maskAddr (.v4 b) n, n, 32⟩) else none
      | none => none
    | none =>
      match parseIPv6go (goCut s '/').1 with
      | some g =>
        match goDtoiFull (goCut s '/').2 with
        | some n => if n ≤ 128 then some (.v6 g, ⟨maskAddr (.v6 g) n, n, 128⟩) else none
        | none => none
      | none => none

/-! ## Mechanism AST and per-kind parsers (spf.go part 2) -/

/-- Go declares `type Qualifier rune`; the qualifier is the literal prefix
character. -/
abbrev Qualifier := Char

/-- Embedding of the `Mechanism` struct (spf.go lines 242-250).  Go zero
values translate to `none`, `[]` and `0`. -/
structure Mechanism where
  Qual : Qualifier
  Kind : Str
  Net : Option IPNet
  Domain : Str
  Mask4 : Int
  Mask6 : Int
  Macro : Str
deriving DecidableEq

/-- Embedding of the `Modifier` struct (spf.go lines 234-237). -/
structure Modifier where
  Name : Str
  Value : Str
deriving DecidableEq

/-- Embedding of the `Record` struct (spf.go lines 253-258). -/
structure Record where
  Mechs : List Mechanism
  Redirect : Option Modifier
  Exp : Option Modifier
  Unknown : List Modifier
deriving DecidableEq

/-- Embedding of `stripQualifier` (spf.go lines 312-322): a leading `+`, `-`,
`~` or `?` is the qualifier, otherwise `+` is implied. -/
def stripQualifier (tok : Str) : Qualifier × Str :=
  match tok with
  | [] => ('+', [])
  | c :: rest =>
    if c = '+' || c = '-' || c = '~' || c = '?' then (c, rest)
    else ('+', c :: rest)

/-- Embedding of `parseAll` (spf.go lines 326-331). -/
def parseAll (q : Qualifier) (rest : Str) : Except MechErr Mechanism :=
  if rest ≠ "all".data then .error .notAll
  else .ok ⟨q, "all".data, none, [], 0, 0, []⟩

/-- The default-mask step shared by `parseIP4` and `parseIP6` (spf.go lines
343-345 and 373-375): when the argument has no slash, append the default
`/32` or `/128` suffix. -/
def withDefaultMask (cidr dflt : Str) : Str :=
  if !(containsRuneGo cidr '/') then cidr ++ dflt else cidr

/-- Embedding of `parseIP4` (spf.go lines 335-362): strip the `ip4:` prefix,
append `/32` when no slash is present, parse the CIDR, reject when parsing
fails or the address is not IPv4-representable (`To4 == nil`), then apply the
(nearly dead) `ones > 32` guard. -/
def parseIP4 (q : Qualifier) (rest : Str) : Except MechErr Mechanism :=
  if !(hasPrefixGo rest "ip4:".data) then .error .noMatch
  else
    match goParseCIDR (withDefaultMask (trimPrefixGo rest "ip4:".data) "/32".data) with
    | none => .error .badIPCidr
    | some (ip, netw) =>
      if ipTo4 ip = none then .error .badIPCidr
      else if netw.ones > 32 then .error .cidrOutOfRange
      else .ok ⟨q, "ip4".data, some netw, [], 0, 0, []⟩

/-- Embedding of `parseIP6` (spf.go lines 366-391): as `parseIP4` with the
`ip6:` prefix, a default `/128`, rejection when the address is
IPv4-representable (`To4 != nil`), and the `ones > 128` guard. -/
def parseIP6 (q : Qualifier) (rest : Str) : Except MechErr Mechanism :=
  if !(hasPrefixGo rest "ip6:".data) then .error .noMatch
  else
    match goParseCIDR (withDefaultMask (trimPrefixGo rest "ip6:".data) "/128".data) with
    | none => .error .badIPCidr
    | some (ip, netw) =>
      if ipTo4 ip ≠ none then .error .badIPCidr
      else if netw.ones > 128 then .error .cidrOutOfRange
      else .ok ⟨q, "ip6".data, some netw, [], 0, 0, []⟩

/-- Model of Go `strconv.Atoi`: optional sign, non-empty run of decimal
digits consuming the whole string, 64-bit range. -/
def goAtoi (s : Str) : Option Int :=
  match s with
  | [] => none
  | c :: rest =>
    let signed : Bool × Str :=
      if c = '-' then (true, rest)
      else if c = '+' then (false, rest)
      else (false, c :: rest)
    let digits := signed.2
    if digits = [] then none
    else if !(digits.all isDigitGo) then none
    else
      let n := digitsToNat digits
      if signed.1 then
        if n ≤ 9223372036854775808 then some (-(n : Int)) else none
      else
        if n ≤ 9223372036854775807 then some (n : Int) else none

/-- The `toInt` closure inside `parseMasks` (spf.go lines 473-479): `Atoi`
plus a `0 ≤ n ≤ max` bound, failing with the `cidr out of range` error. -/
def toIntGo (s : Str) (mx : Int) : Except MechErr Int :=
  match goAtoi s with
  | none => .error .cidrOutOfRange
  | some n => if n < 0 || n > mx then .error .cidrOutOfRange else .ok n

/-- Embedding of `parseMasks` (spf.go lines 472-497): `"24"` gives
`(24, -1)`, `"24/64"` gives `(24, 64)`, anything with more slash-separated
parts is an error. -/
def parseMasks (maskstr : Str) : Except MechErr (Int × Int) :=
  match splitOnCharGo '/' maskstr with
  | [p] =>
    match toIntGo p 32 with
    | .error e => .error e
    | .ok m4 => .ok (m4, -1)
  | [p1, p2] =>
    match toIntGo p1 32 with
    | .error e => .error e
    | .ok m4 =>
      match toIntGo p2 128 with
      | .error e => .error e
      | .ok m6 => .ok (m4, m6)
  | _ => .error .tooManySlashSegments

/-- Embedding of `parseA` (spf.go lines 406-459): after the leading `a`, a
bare term, a `/mask` form, or a `:domain[/mask]` form (domain validated via
`ValidateDomain`); anything else is the invalid-syntax error. -/
def parseA (q : Qualifier) (rest : Str) : Except MechErr Mechanism :=
  if !(hasPrefixGo rest "a".data) then .error .noMatch
  else
    let spec := rest.drop 1
    if spec = [] then .ok ⟨q, "a".data, none, [], -1, -1, []⟩
    else if hasPrefixGo spec "/".data then
      match parseMasks (trimPrefixGo spec "/".data) with
      | .error e => .error e
      | .ok (m4, m6) => .ok ⟨q, "a".data, none, [], m4, m6, []⟩
    else if hasPrefixGo spec ":".data then
      let afterColon := trimPrefixGo spec ":".data
      let domainPart := (goCut afterColon '/').1
      let maskPart := (goCut afterColon '/').2
      let checkedDomain : Except MechErr Str :=
        if domainPart ≠ [] then
          match ValidateDomain domainPart with
          | .error _ => .error .badADomain
          | .ok _ => .ok domainPart
        else .ok []
      match checkedDomain with
      | .error e => .error e
      | .ok dom =>
        if maskPart ≠ [] then
          match parseMasks maskPart with
          | .error e => .error e
          | .ok (m4, m6) => .ok ⟨q, "a".data, none, dom, m4, m6, []⟩
        else .ok ⟨q, "a".data, none, dom, -1, -1, []⟩
    else .error .invalidASyntax

/-- The `":domain" [ "/" ... ]` case of `parseMX` (spf.go lines 533-549):
`afterColon` is cut at the first `/` into a domain part and a mask part; a
non-empty domain part must pass `ValidateDomain` (failure is the bad-domain
error) and becomes the mechanism domain, an empty one leaves the Go zero
value; a non-empty mask part goes through `parseMasks`. -/
def mxDomainCase (q : Qualifier) (afterColon : Str) : Except MechErr Mechanism :=
  if (goCut afterColon '/').1 ≠ [] then
    match ValidateDomain (goCut afterColon '/').1 with
    | .error _ => .error .badMXDomain
    | .ok _ =>
      if (goCut afterColon '/').2 ≠ [] then
        match parseMasks (goCut afterColon '/').2 with
        | .error e => .error e
        | .ok (m4, m6) =>
          .ok ⟨q, "mx".data, none, (goCut afterColon '/').1, m4, m6, []⟩
      else .ok ⟨q, "mx".data, none, (goCut afterColon '/').1, -1, -1, []⟩
  else
    if (goCut afterColon '/').2 ≠ [] then
      match parseMasks (goCut afterColon '/').2 with
      | .error e => .error e
      | .ok (m4, m6) => .ok ⟨q, "mx".data, none, [], m4, m6, []⟩
    else .ok ⟨q, "mx".data, none, [], -1, -1, []⟩

/-- Embedding of `parseMX` (spf.go lines 515-561), with `spec := rest[2:]`
inlined.  Note the source's third case is `strings.HasPrefix(spec, "")`,
which is true of every string, so the final `default` (invalid-syntax)
branch is unreachable; the embedding keeps the same vacuous guard. -/
def parseMX (q : Qualifier) (rest : Str) : Except MechErr Mechanism :=
  if !(hasPrefixGo rest "mx".data) then .error .noMatch
  else if rest.drop 2 = [] then .ok ⟨q, "mx".data, none, [], -1, -1, []⟩
  else if hasPrefixGo (rest.drop 2) "/".data then
    match parseMasks (trimPrefixGo (rest.drop 2) "/".data) with
    | .error e => .error e
    | .ok (m4, m6) => .ok ⟨q, "mx".data, none, [], m4, m6, []⟩
  else if hasPrefixGo (rest.drop 2) [] then
    mxDomainCase q (trimPrefixGo (rest.drop 2) ":".data)
  else .error .invalidMXSyntax

/-- One iteration of the dispatch loop in `Parse` (spf.go lines 275-289):
strip the qualifier and try `parseAll, parseIP4, parseIP6, parseA, parseMX`
in order; the first success wins and otherwise the error of the last parser
tried is reported. -/
def parseTerm (tok : Str) : Except MechErr Mechanism :=
  let q := (stripQualifier tok).1
  let rest := (stripQualifier tok).2
  match parseAll q rest with
  | .ok m => .ok m
  | .error _ =>
    match parseIP4 q rest with
    | .ok m => .ok m
    | .error _ =>
      match parseIP6 q rest with
      | .ok m => .ok m
      | .error _ =>
        match parseA q rest with
        | .ok m => .ok m
        | .error _ => parseMX q rest

/-- The term loop of `Parse`, accumulating mechanisms in source order onto
`record.Mechs`; a term failure aborts with the wrapped permerror. -/
def parseLoop : List Str → Record → Except TopErr Record
  | [], rec => .ok rec
  | tok :: rest, rec =>
    match parseTerm tok with
    | .error e => .error (.permerror e)
    | .ok mech => parseLoop rest ⟨rec.Mechs ++ [mech], rec.Redirect, rec.Exp, rec.Unknown⟩

/-- Embedding of `Parse` (spf.go lines 264-291): tokenize, then run the
dispatch loop starting from the zero-valued `Record` (the source never fills
`Redirect`, `Exp` or `Unknown`). -/
def Parse (rawTXT : Str) : Except TopErr Record :=
  match tokenizer rawTXT with
  | .error e => .error e
  | .ok tokens => parseLoop tokens ⟨[], none, none, []⟩

/-! ## CheckHost (spf.go part 1) -/

/-- Go declares `type Result string`; results are the literal strings of
spf.go lines 19-27, and the zero value is the empty string. -/
abbrev ResultCode := Str

/-- Result constant `None`. -/
def resNone : ResultCode := "none".data

/-- Result constant `Neutral`. -/
def resNeutral : ResultCode := "neutral".data

/-- Result constant `Pass`. -/
def resPass : ResultCode := "pass".data

/-- Result constant `Fail`. -/
def resFail : ResultCode := "fail".data

/-- Result constant `SoftFail`. -/
def resSoftFail : ResultCode := "softfail".data

/-- Result constant `TempError`. -/
def resTempError : ResultCode := "temperror".data

/-- Result constant `PermError`. -/
def resPermError : ResultCode := "permerror".data

/-- Limit `MaxDNSLookups` from RFC 7208 section 4.6.4 (spf.go line 41). -/
def MaxDNSLookups : Nat := 10

/-- Limit `MaxVoidLookups` (spf.go line 42). -/
def MaxVoidLookups : Nat := 2

/-- Errors the record fetch can surface, mirroring the sentinels referenced
by `CheckHost`'s switch (spf.go lines 90-102): the context errors, and the
`ErrNoDNSrecord`, `ErrTempfail`, `ErrPermfail`, `ErrMultipleSPF` sentinels
declared by the (unprovided) resolver source. -/
inductive SPFErr where
  | canceled
  | deadlineExceeded
  | noDNSrecord
  | tempfail
  | permfail
  | multipleSPF
deriving DecidableEq

/-- Diagnostic cause stored in `CheckHostResult.Cause`: a domain-validation
sentinel, a record-fetch sentinel, or the ad-hoc `errors.New` message from
`evaluate`. -/
inductive Cause where
  | dom (e : DomainErr)
  | spf (e : SPFErr)
  | msg (s : Str)
deriving DecidableEq

/-- Embedding of the `CheckHostResult` struct (spf.go lines 65-68).  The Go
zero value is `⟨[], none⟩` (empty result string, nil cause). -/
structure CheckHostResult where
  Code : ResultCode
  Cause : Option Cause
deriving DecidableEq

/-- Outcome of one TXT query as produced by the abstract resolver: the
answer strings, or one of the three failure classes the spec's resolver
capability distinguishes, or a context cancellation/deadline. -/
inductive DNSResp where
  | answers (ts : List Str)
  | notfound
  | tempfail
  | canceled
  | deadline
deriving DecidableEq

/-- The TXT resolver capability: one TXT query per domain. -/
abbrev Resolver := Str → DNSResp

/-- Modelled from the spec: `getSPFRecord` (RFC 7208 section 4.4/4.5 record
selection) is referenced by `CheckHost` but its source file is not among the
provided sources.  Per spec section 4.5 step 2 it fetches the TXT records of
the domain, keeps those beginning case-insensitively with `v=spf1`, and
yields: zero candidates or a non-existent domain as `ErrNoDNSrecord`, a
transient DNS failure as `ErrTempfail`, more than one candidate as
`ErrMultipleSPF`, and exactly one candidate as the record text; context
cancellation propagates as the corresponding context error. -/
def getSPFRecord (r : Resolver) (domain : Str) : Except SPFErr Str :=
  match r domain with
  | .canceled => .error .canceled
  | .deadline => .error .deadlineExceeded
  | .notfound => .error .noDNSrecord
  | .tempfail => .error .tempfail
  | .answers ts =>
    match ts.filter (fun t => hasPrefixGo (toLowerGo t) "v=spf1".data) with
    | [] => .error .noDNSrecord
    | [t] => .ok t
    | _ => .error .multipleSPF

/-- Embedding of `Checker.evaluate` (spf.go lines 121-125): the decision-tree
walk is an explicit placeholder that ignores the record and returns Neutral
with the fixed `errors.New` cause, and performs no DNS lookups. -/
def evaluate (ip : IPAddr) (domain spf lp : Str) : CheckHostResult × Option SPFErr :=
  (⟨resNeutral, some (.msg "policy exists but no assertion".data)⟩, none)

/-- Embedding of `Checker.CheckHost` (spf.go lines 78-110), instrumented with
the number of DNS queries issued (third component): domain validation failure
returns None with the sentinel as cause and a nil error before any lookup;
otherwise the record fetch (one query) is classified by the switch of lines
90-102 and a fetched record is handed to `evaluate`. -/
def CheckHost (r : Resolver) (ip : IPAddr) (domain sender : Str) :
    (CheckHostResult × Option SPFErr) × Nat :=
  match ValidateDomain domain with
  | .error e => ((⟨resNone, some (.dom e)⟩, none), 0)
  | .ok valDomain =>
    let lp := localPart sender
    match getSPFRecord r valDomain with
    | .error .canceled => ((⟨[], none⟩, some .canceled), 1)
    | .error .deadlineExceeded => ((⟨[], none⟩, some .deadlineExceeded), 1)
    | .error .noDNSrecord => ((⟨resNone, some (.spf .noDNSrecord)⟩, some .noDNSrecord), 1)
    | .error .tempfail => ((⟨resTempError, some (.spf .tempfail)⟩, none), 1)
    | .error .permfail => ((⟨resPermError, some (.spf .permfail)⟩, none), 1)
    | .error .multipleSPF => ((⟨resPermError, some (.spf .multipleSPF)⟩, none), 1)
    | .ok spfRecord =>
      if spfRecord = [] then ((⟨[], none⟩, none), 1)
      else (evaluate ip valDomain spfRecord lp, 1)

end SPF

section Sanity

example : "ab".data = ['a', 'b'] := rfl

example : SPF.fieldsGo "  v=spf1  -all ".data = ["v=spf1".data, "-all".data] := by decide

example : SPF.splitOnCharGo '.' "a.com".data = ["a".data, "com".data] := by decide

example : SPF.goCut "foo.com/24".data '/' = ("foo.com".data, "24".data) := by decide

example : SPF.ValidateDomain "Example.COM.".data = .ok "example.com".data := by decide

example : SPF.ValidateDomain "localhost".data = .error .singleLabel := by decide

example : SPF.ValidateDomain "-a.com".data = .error .idnaConversion := by decide

example : SPF.ValidateDomain "a_b.com".data = .error .idnaConversion := by decide

example : SPF.ValidateDomain "a..com".data = .error .emptyLabel := by decide

example : SPF.localPart "<ann@example.com>".data = "ann".data := by decide

example : SPF.localPart "bounces".data = "postmaster".data := by decide

example : SPF.tokenizer "v=spf1 -all".data = .ok ["-all".data] := by decide

example : SPF.tokenizer "V=SPF1 a mx".data = .ok ["a".data, "mx".data] := by decide

example : SPF.tokenizer "v=spf1x foo".data = .ok ["foo".data] := by decide

example : SPF.tokenizer "v=spf2 -all".data = .error .missingVersion := by decide

example : SPF.tokenizer "  v=spf1  ".data = .error .noTerms := by decide

example : SPF.parseIPv4go "192.0.2.1".data = some [192, 0, 2, 1] := by decide

example : SPF.parseIPv4go "192.0.2.01".data = none := by decide

example : SPF.parseIPv4go "1.2.3".data = none := by decide

example : SPF.parseIPv6go "1::2".data = some [1, 0, 0, 0, 0, 0, 0, 2] := by decide

example : SPF.parseIPv6go "2001:db8::1".data
    = some [0x2001, 0xdb8, 0, 0, 0, 0, 0, 1] := by decide

example : SPF.parseIPv6go "::ffff:192.0.2.1".data
    = some [0, 0, 0, 0, 0, 0xffff, 0xc000, 0x0201] := by decide

example : SPF.parseIPv6go "::".data = some [0, 0, 0, 0, 0, 0, 0, 0] := by decide

example : SPF.parseIPv6go "1:2:3:4:5:6:7:8".data = some [1, 2, 3, 4, 5, 6, 7, 8] := by decide

example : SPF.parseIPv6go "1:2:3:4:5:6:7:8:9".data = none := by decide

example : SPF.parseIPv6go "1:2:3:4:5:6:7:8::".data = none := by decide

example : SPF.parseIPv6go "1:2:3:4:5:6:7:".data = none := by decide

example : SPF.parseIPv6go "1.2.3.4".data = none := by decide

example : SPF.parseIPv6go "1::2::3".data = none := by decide

example : SPF.parseIPv6go "12345::".data = none := by decide

example : SPF.goParseCIDR "192.0.2.0/24".data
    = some (.v4 [192, 0, 2, 0], ⟨.v4 [192, 0, 2, 0], 24, 32⟩) := by decide

example : SPF.goParseCIDR "192.0.2.7/24".data
    = some (.v4 [192, 0, 2, 7], ⟨.v4 [192, 0, 2, 0], 24, 32⟩) := by decide

example : SPF.goParseCIDR "1.2.3.4/33".data = none := by decide

example : SPF.goParseCIDR "2001:db8::1/33".data
    = some (.v6 [0x2001, 0xdb8, 0, 0, 0, 0, 0, 1],
        ⟨.v6 [0x2001, 0xdb8, 0, 0, 0, 0, 0, 0], 33, 128⟩) := by decide

example : SPF.ipTo4 (.v6 [0, 0, 0, 0, 0, 0xffff, 0xc000, 0x0201])
    = some [192, 0, 2, 1] := by decide

example : SPF.ipTo4 (.v6 [0x2001, 0xdb8, 0, 0, 0, 0, 0, 1]) = none := by decide

example : SPF.parseAll '-' "all".data = .ok ⟨'-', "all".data, none, [], 0, 0, []⟩ := by decide

example : SPF.parseIP4 '+' "ip4:192.0.2.0/24".data
    = .ok ⟨'+', "ip4".data, some ⟨.v4 [192, 0, 2, 0], 24, 32⟩, [], 0, 0, []⟩ := by decide

example : SPF.parseIP4 '+' "ip4:2001:db8::1".data = .error .badIPCidr := by decide

example : SPF.parseIP4 '+' "ip4:::ffff:192.0.2.1".data
    = .ok ⟨'+', "ip4".data, some ⟨.v6 [0, 0, 0, 0, 0, 0, 0, 0], 32, 128⟩, [], 0, 0, []⟩ := by
  decide

example : SPF.parseIP6 '+' "ip6:192.0.2.1".data = .error .badIPCidr := by decide

example : SPF.parseIP6 '+' "ip6:::ffff:192.0.2.1".data = .error .badIPCidr := by decide

example : SPF.parseIP6 '+' "ip6:2001:db8::/64".data
    = .ok ⟨'+', "ip6".data, some ⟨.v6 [0x2001, 0xdb8, 0, 0, 0, 0, 0, 0], 64, 128⟩,
        [], 0, 0, []⟩ := by decide

example : SPF.parseMasks "24".data = .ok (24, -1) := by decide

example : SPF.parseMasks "24/64".data = .ok (24, 64) := by decide

example : SPF.parseMasks "33".data = .error .cidrOutOfRange := by decide

example : SPF.parseMasks "24/64/2".data = .error .tooManySlashSegments := by decide

example : SPF.parseA '+' "a".data = .ok ⟨'+', "a".data, none, [], -1, -1, []⟩ := by decide

example : SPF.parseA '+' "a:mail.example.com/24/64".data
    = .ok ⟨'+', "a".data, none, "mail.example.com".data, 24, 64, []⟩ := by decide

example : SPF.parseA '+' "afoobar".data = .error .invalidASyntax := by decide

example : SPF.parseMX '+' "mx".data = .ok ⟨'+', "mx".data, none, [], -1, -1, []⟩ := by decide

example : SPF.parseMX '+' "mxexample.com".data
    = .ok ⟨'+', "mx".data, none, "example.com".data, -1, -1, []⟩ := by decide

example : SPF.parseMX '+' "mxfoo.com/99".data = .error .cidrOutOfRange := by decide

example : SPF.Parse "v=spf1 -all".data
    = .ok ⟨[⟨'-', "all".data, none, [], 0, 0, []⟩], none, none, []⟩ := by decide

example : SPF.Parse "v=spf1 redirect=example.com".data
    = .error (.permerror .noMatch) := by decide

example : SPF.Parse "v=spf1 exp=explain.example.com".data
    = .error (.permerror .noMatch) := by decide

example : SPF.Parse "v=spf1 unknown=xyz".data = .error (.permerror .noMatch) := by decide

example :
    SPF.CheckHost
      (fun d => if d = "example.com".data then .answers ["v=spf1 -all".data] else .notfound)
      (.v4 [192, 0, 2, 1]) "example.com".data "ann@example.com".data
    = ((⟨SPF.resNeutral, some (.msg "policy exists but no assertion".data)⟩, none), 1) := by
  decide

example :
    SPF.CheckHost (fun _ => .notfound) (.v4 [1, 2, 3, 4]) "localhost".data "x".data
    = ((⟨SPF.resNone, some (.dom .singleLabel)⟩, none), 0) := by decide

example :
    SPF.CheckHost (fun _ => .answers ["not-spf".data]) (.v4 [1, 2, 3, 4])
      "example.org".data "x".data
    = ((⟨SPF.resNone, some (.spf .noDNSrecord)⟩, some .noDNSrecord), 1) := by decide

end Sanity

namespace SPF

/-! ## Claim C1: `v=spf1 -all` and the placeholder evaluator -/

/-- Resolver for a domain whose sole qualifying TXT record is
`v=spf1 -all`. -/
def resolverDashAll : Resolver := fun d =>
  if d = "example.com".data then .answers ["v=spf1 -all".data] else .notfound

/-- C1: the claim says a domain whose sole qualifying TXT record is
`v=spf1 -all` yields Code=Fail for every connecting IP.  The source's
`evaluate` is an explicit placeholder that returns Neutral for all inputs
(spf.go lines 118-125), so `CheckHost` returns Neutral, never Fail. -/
theorem checkHost_minus_all_returns_neutral_not_fail (ip : IPAddr) (sender : Str) :
    (CheckHost resolverDashAll ip "example.com".data sender).1.1.Code = resNeutral
    ∧ (CheckHost resolverDashAll ip "example.com".data sender).1.1.Code ≠ resFail := by
  have h : (CheckHost resolverDashAll ip "example.com".data sender).1.1.Code = resNeutral := rfl
  exact ⟨h, by rw [h]; decide⟩

/-- C1 witness: the theorem at a concrete IP and sender. -/
theorem checkHost_minus_all_returns_neutral_not_fail_witness :
    (CheckHost resolverDashAll (.v4 [192, 0, 2, 1]) "example.com".data
        "ann@example.com".data).1.1.Code = resNeutral
    ∧ (CheckHost resolverDashAll (.v4 [192, 0, 2, 1]) "example.com".data
        "ann@example.com".data).1.1.Code ≠ resFail :=
  checkHost_minus_all_returns_neutral_not_fail (.v4 [192, 0, 2, 1])
    "ann@example.com".data

/-! ## Claim C2: mutual redirect and the lookup budget -/

/-- Resolver for two domains whose records mutually `redirect=` each
other. -/
def resolverMutualRedirect : Resolver := fun d =>
  if d = "a.com".data then .answers ["v=spf1 redirect=b.com".data]
  else if d = "b.com".data then .answers ["v=spf1 redirect=a.com".data]
  else .notfound

/-- C2: the claim says mutually redirecting records terminate with
Code=PermError once 10 lookups are consumed.  The placeholder `evaluate`
never follows `redirect=`, so the evaluation issues exactly one DNS lookup
and returns Neutral; PermError is never produced and `MaxDNSLookups` is never
approached. -/
theorem checkHost_mutual_redirect_single_lookup_neutral (ip : IPAddr) (sender : Str) :
    (CheckHost resolverMutualRedirect ip "a.com".data sender).2 = 1
    ∧ (CheckHost resolverMutualRedirect ip "a.com".data sender).1.1.Code = resNeutral
    ∧ (CheckHost resolverMutualRedirect ip "a.com".data sender).1.1.Code ≠ resPermError
    ∧ (CheckHost resolverMutualRedirect ip "a.com".data sender).2 ≤ MaxDNSLookups := by
  have h : (CheckHost resolverMutualRedirect ip "a.com".data sender).1.1.Code = resNeutral :=
    rfl
  have hl : (CheckHost resolverMutualRedirect ip "a.com".data sender).2 = 1 := rfl
  exact ⟨rfl, h, by rw [h]; decide, by rw [hl]; decide⟩

/-- C2 witness: the theorem at a concrete IP and sender. -/
theorem checkHost_mutual_redirect_single_lookup_neutral_witness :
    (CheckHost resolverMutualRedirect (.v4 [203, 0, 113, 5]) "a.com".data
        "bob@a.com".data).2 = 1
    ∧ (CheckHost resolverMutualRedirect (.v4 [203, 0, 113, 5]) "a.com".data
        "bob@a.com".data).1.1.Code = resNeutral
    ∧ (CheckHost resolverMutualRedirect (.v4 [203, 0, 113, 5]) "a.com".data
        "bob@a.com".data).1.1.Code ≠ resPermError
    ∧ (CheckHost resolverMutualRedirect (.v4 [203, 0, 113, 5]) "a.com".data
        "bob@a.com".data).2 ≤ MaxDNSLookups :=
  checkHost_mutual_redirect_single_lookup_neutral (.v4 [203, 0, 113, 5]) "bob@a.com".data

/-! ## Claim C3: zero qualifying TXT records -/

/-- Resolver for a domain whose TXT records exist but none qualifies as an
SPF record. -/
def resolverNoSPF : Resolver := fun d =>
  if d = "example.org".data then .answers ["not-an-spf-record".data] else .notfound

/-- C3 counterexample: the claim says zero qualifying TXT records yield
Code=None and a nil transport error; the source (spf.go line 95) returns the
`ErrNoDNSrecord` sentinel also as the transport error, so the error is not
nil. -/
theorem checkHost_zero_spf_records_err_not_nil :
    (CheckHost resolverNoSPF (.v4 [192, 0, 2, 1]) "example.org".data
        "ann@example.org".data).1.1.Code = resNone
    ∧ (CheckHost resolverNoSPF (.v4 [192, 0, 2, 1]) "example.org".data
        "ann@example.org".data).1.2 ≠ none := by
  decide

/-- C3 amended: for every domain that validates and whose TXT answer contains
no record starting case-insensitively with `v=spf1`, `CheckHost` returns
Code=None with the `ErrNoDNSrecord` cause, and the same sentinel as a
non-nil transport error, after exactly one DNS lookup. -/
theorem checkHost_zero_spf_records_none_with_err (r : Resolver) (ip : IPAddr)
    (domain sender vd : Str) (ts : List Str)
    (h1 : ValidateDomain domain = .ok vd) (h2 : r vd = .answers ts)
    (h3 : ts.filter (fun t => hasPrefixGo (toLowerGo t) "v=spf1".data) = []) :
    CheckHost r ip domain sender
      = ((⟨resNone, some (.spf .noDNSrecord)⟩, some .noDNSrecord), 1) := by
  simp only [CheckHost, getSPFRecord, h1, h2, h3]

/-- C3 witness: the amended theorem applied at the concrete resolver. -/
theorem checkHost_zero_spf_records_none_with_err_witness :
    CheckHost resolverNoSPF (.v4 [192, 0, 2, 8]) "Example.Org".data "x@example.org".data
      = ((⟨resNone, some (.spf .noDNSrecord)⟩, some .noDNSrecord), 1) :=
  checkHost_zero_spf_records_none_with_err resolverNoSPF (.v4 [192, 0, 2, 8])
    "Example.Org".data "x@example.org".data "example.org".data
    ["not-an-spf-record".data] (by decide) (by decide) (by decide)

/-! ## Claim C4: modifier terms -/

/-- C4: the claim says `name=value` terms are recorded as modifiers
(`redirect=`/`exp=` into their slots, others into Unknown).  The source's
`Parse` loop (spf.go lines 275-289) only tries the five mechanism parsers and
wraps the last failure as a permerror, so every modifier term is rejected and
`Redirect`, `Exp` and `Unknown` are never populated. -/
theorem parse_rejects_all_modifier_terms :
    Parse "v=spf1 redirect=example.com".data = .error (.permerror .noMatch)
    ∧ Parse "v=spf1 exp=explain.example.com".data = .error (.permerror .noMatch)
    ∧ Parse "v=spf1 unknown=xyz -all".data = .error (.permerror .noMatch)
    ∧ Parse "v=spf1 redirect=example.com redirect=other.example.com".data
        = .error (.permerror .noMatch) := by
  decide

/-! ## Shared lemmas about `splitOnCharGo` -/

/-- Characters of a split part are characters of the split string. -/
theorem mem_of_mem_splitOnCharGo {sep : Char} {s l : Str} {c : Char}
    (hl : l ∈ splitOnCharGo sep s) (hc : c ∈ l) : c ∈ s := by
  induction s generalizing l with
  | nil =>
    simp only [splitOnCharGo, List.mem_singleton] at hl
    subst hl
    cases hc
  | cons a rest ih =>
    simp only [splitOnCharGo] at hl
    by_cases ha : a = sep
    · rw [if_pos ha] at hl
      rcases List.mem_cons.mp hl with rfl | hl
      · cases hc
      · exact List.mem_cons_of_mem _ (ih hl hc)
    · rw [if_neg ha] at hl
      cases hsp : splitOnCharGo sep rest with
      | nil =>
        rw [hsp] at hl
        simp only [List.mem_singleton] at hl
        subst hl
        have hca : c = a := List.mem_singleton.mp hc
        subst hca
        exact List.mem_cons_self _ _
      | cons p ps =>
        rw [hsp] at hl
        rcases List.mem_cons.mp hl with rfl | hl
        · rcases List.mem_cons.mp hc with rfl | hc
          · exact List.mem_cons_self _ _
          · exact List.mem_cons_of_mem _ (ih (by rw [hsp]; exact List.mem_cons_self _ _) hc)
        · exact List.mem_cons_of_mem _ (ih (by rw [hsp]; exact List.mem_cons_of_mem _ hl) hc)

/-- Split parts never contain the separator. -/
theorem not_sep_of_mem_splitOnCharGo {sep : Char} {s l : Str} {c : Char}
    (hl : l ∈ splitOnCharGo sep s) (hc : c ∈ l) : c ≠ sep := by
  induction s generalizing l with
  | nil =>
    simp only [splitOnCharGo, List.mem_singleton] at hl
    subst hl
    cases hc
  | cons a rest ih =>
    simp only [splitOnCharGo] at hl
    by_cases ha : a = sep
    · rw [if_pos ha] at hl
      rcases List.mem_cons.mp hl with rfl | hl
      · cases hc
      · exact ih hl hc
    · rw [if_neg ha] at hl
      cases hsp : splitOnCharGo sep rest with
      | nil =>
        rw [hsp] at hl
        simp only [List.mem_singleton] at hl
        subst hl
        rcases List.mem_cons.mp hc with rfl | hc
        · exact ha
        · cases hc
      | cons p ps =>
        rw [hsp] at hl
        rcases List.mem_cons.mp hl with rfl | hl
        · rcases List.mem_cons.mp hc with rfl | hc
          · exact ha
          · exact ih (by rw [hsp]; exact List.mem_cons_self _ _) hc
        · exact ih (by rw [hsp]; exact List.mem_cons_of_mem _ hl) hc

/-- Every non-separator character of the string lands in some split part. -/
theorem exists_part_of_mem_splitOnCharGo {sep : Char} {s : Str} {c : Char}
    (hc : c ∈ s) (hne : c ≠ sep) : ∃ l ∈ splitOnCharGo sep s, c ∈ l := by
  induction s with
  | nil => cases hc
  | cons a rest ih =>
    simp only [splitOnCharGo]
    by_cases ha : a = sep
    · rw [if_pos ha]
      rcases List.mem_cons.mp hc with rfl | hc
      · exact absurd ha hne
      · obtain ⟨l, hl, hcl⟩ := ih hc
        exact ⟨l, List.mem_cons_of_mem _ hl, hcl⟩
    · rw [if_neg ha]
      cases hsp : splitOnCharGo sep rest with
      | nil =>
        refine ⟨[a], List.mem_singleton_self _, ?_⟩
        rcases List.mem_cons.mp hc with rfl | hc
        · exact List.mem_singleton_self _
        · obtain ⟨l, hl, _⟩ := ih hc
          rw [hsp] at hl
          cases hl
      | cons p ps =>
        rcases List.mem_cons.mp hc with rfl | hc
        · exact ⟨c :: p, List.mem_cons_self _ _, List.mem_cons_self _ _⟩
        · obtain ⟨l, hl, hcl⟩ := ih hc
          rw [hsp] at hl
          rcases List.mem_cons.mp hl with rfl | hl
          · exact ⟨a :: l, List.mem_cons_self _ _, List.mem_cons_of_mem _ hcl⟩
          · exact ⟨l, List.mem_cons_of_mem _ hl, hcl⟩

/-! ## Claim C7: label characters and hyphen placement -/

/-- C7 counterexample: `-a.com` has a label with a leading hyphen; the claim
says this fails with an `InvalidLabelChars` error, but the source returns
`ErrIDNAConversion` (the rejection comes from the idna Lookup conversion),
and its error set — enumerated in the second conjunct — contains no
label-character sentinel at all (spf.go lines 31-37). -/
theorem validateDomain_leading_hyphen_is_idna_error :
    ValidateDomain "-a.com".data = .error DomainErr.idnaConversion
    ∧ ∀ e : DomainErr,
        e = .singleLabel ∨ e = .emptyLabel ∨ e = .labelTooLong
        ∨ e = .domainTooLong ∨ e = .idnaConversion := by
  refine ⟨by decide, ?_⟩
  intro e
  cases e <;> simp

/-- C7 amended: every domain one of whose labels (after the whitespace trim
and trailing-dot strip of `ValidateDomain`) contains a character that is not
an ASCII letter, digit or hyphen, or begins or ends with a hyphen, is
rejected — but with `ErrIDNAConversion`, because the idna Lookup profile
enforces the STD3 character rules and the hyphen placement rule before the
source's own label checks run. -/
theorem validateDomain_badlabel_idna_error (d : Str)
    (h : ∃ l ∈ splitOnCharGo '.' (trimSuffixGo (trimSpaceGo d) ".".data),
        (∃ c ∈ l, isSTD3 c = false) ∨ l.head? = some '-' ∨ l.getLast? = some '-') :
    ValidateDomain d = .error DomainErr.idnaConversion := by
  have hidna : idnaLookupToASCII (trimSuffixGo (trimSpaceGo d) ".".data) = none := by
    obtain ⟨l, hl, hbad⟩ := h
    unfold idnaLookupToASCII
    by_cases hall :
        (trimSuffixGo (trimSpaceGo d) ".".data).all (fun c => isSTD3 c || c = '.') = true
    · rw [hall]
      have hhyph :
          ((splitOnCharGo '.' (trimSuffixGo (trimSpaceGo d) ".".data)).all
            labelHyphensOk) = false := by
        rcases hbad with ⟨c, hc, hcf⟩ | hh | hlast
        · exact absurd ((List.all_eq_true.mp hall) c (mem_of_mem_splitOnCharGo hl hc))
            (by simp [hcf, not_sep_of_mem_splitOnCharGo hl hc])
        · refine List.all_eq_false.mpr ⟨l, hl, ?_⟩
          simp [labelHyphensOk, hh]
        · refine List.all_eq_false.mpr ⟨l, hl, ?_⟩
          simp [labelHyphensOk, hlast]
      rw [hhyph]
      rfl
    · rw [Bool.eq_false_iff.mpr hall]
      rfl
  simp only [ValidateDomain, hidna]

/-- C7 amended, witness: the underscore domain `a_b.com` instantiates the
theorem. -/
theorem validateDomain_badlabel_idna_error_witness :
    ValidateDomain "a_b.com".data = .error DomainErr.idnaConversion :=
  validateDomain_badlabel_idna_error "a_b.com".data
    ⟨"a_b".data, by decide, .inl ⟨'_', by decide, by decide⟩⟩

/-! ## Claim C5: the version check is a prefix test -/

/-- The six Go whitespace characters are fixed points of `Char.toLower`. -/
theorem toLower_of_space (c : Char) (h : isSpaceGo c = true) : Char.toLower c = c := by
  simp only [isSpaceGo, Bool.or_eq_true, decide_eq_true_eq] at h
  rcases h with ((((h | h) | h) | h) | h) | h <;> subst h <;> decide

/-- The head surviving `dropWhile` fails the predicate. -/
theorem dropWhile_head_false (p : Char → Bool) (l : Str) (c : Char) (cs : Str)
    (h : l.dropWhile p = c :: cs) : p c = false := by
  induction l with
  | nil => cases h
  | cons a rest ih =>
    rw [List.dropWhile_cons] at h
    by_cases hp : p a = true
    · rw [if_pos hp] at h
      exact ih h
    · rw [if_neg hp] at h
      cases h
      exact Bool.eq_false_iff.mpr hp

/-- The first character left by `trimSpaceGo` is not whitespace. -/
theorem trimSpaceGo_head_not_space (raw : Str) (c : Char) (cs : Str)
    (h : trimSpaceGo raw = c :: cs) : isSpaceGo c = false := by
  unfold trimSpaceGo at h
  have hs : ((raw.dropWhile isSpaceGo).reverse.dropWhile isSpaceGo).reverse
      <+: raw.dropWhile isSpaceGo := by
    have h1 := List.dropWhile_suffix (l := (raw.dropWhile isSpaceGo).reverse) isSpaceGo
    have h2 := List.reverse_prefix.mpr h1
    rwa [List.reverse_reverse] at h2
  rw [h] at hs
  obtain ⟨t, ht⟩ := hs
  exact dropWhile_head_false isSpaceGo raw c (cs ++ t) (by rw [← ht]; rfl)

/-- Unfolding of `fieldsGo` on a string with a non-space head: the first
field is the head together with the longest non-space run after it. -/
theorem fieldsGo_first (c : Char) (cs : Str) (h : isSpaceGo c = false) :
    fieldsGo (c :: cs)
      = (c :: cs.takeWhile (fun x => !isSpaceGo x))
        :: fieldsGoAux (cs.length + 1) (cs.dropWhile (fun x => !isSpaceGo x)) := by
  show fieldsGoAux ((c :: cs).length + 1) (c :: cs) = _
  rw [show (c :: cs).length + 1 = (cs.length + 1) + 1 from rfl]
  rw [show fieldsGoAux ((cs.length + 1) + 1) (c :: cs)
      = if isSpaceGo c then fieldsGoAux (cs.length + 1) cs
        else (c :: cs.takeWhile (fun x => !isSpaceGo x))
          :: fieldsGoAux (cs.length + 1) (cs.dropWhile (fun x => !isSpaceGo x)) from rfl]
  rw [if_neg (by simp [h])]

/-- A prefix of the lower-cased string made of non-space characters is also a
prefix of the lower-cased leading non-space run. -/
theorem prefix_toLower_takeWhile (p : Str) :
    ∀ s : Str, (∀ c ∈ p, isSpaceGo c = false) → p <+: toLowerGo s →
      p <+: toLowerGo (s.takeWhile (fun x => !isSpaceGo x)) := by
  induction p with
  | nil =>
    intro s _ _
    exact List.nil_prefix
  | cons a p' ih =>
    intro s hp h
    cases s with
    | nil => simp [toLowerGo] at h
    | cons c cs =>
      rw [toLowerGo, List.map_cons] at h
      obtain ⟨ha, h'⟩ := List.cons_prefix_cons.mp h
      have hc : isSpaceGo c = false := by
        cases hsc : isSpaceGo c
        · rfl
        · exfalso
          have hfix : Char.toLower c = c := toLower_of_space c hsc
          have hna : isSpaceGo a = false := hp a (List.mem_cons_self _ _)
          rw [ha, hfix, hsc] at hna
          exact absurd hna (by decide)
      rw [List.takeWhile_cons, if_pos (by simp [hc])]
      rw [toLowerGo, List.map_cons]
      exact List.cons_prefix_cons.mpr
        ⟨ha, ih cs (fun x hx => hp x (List.mem_cons_of_mem _ hx)) h'⟩

/-- C5 counterexample: the claim says any input whose first token is not
exactly `v=spf1` (such as one beginning `v=spf1x`) fails with the
missing-version error; the source tests only that the record begins with the
prefix `v=spf1` (spf.go line 298), so `v=spf1x foo` is accepted and the
first token discarded. -/
theorem tokenizer_accepts_vspf1x :
    tokenizer "v=spf1x foo".data = .ok ["foo".data]
    ∧ tokenizer "v=spf1x foo".data ≠ .error .missingVersion := by
  decide

/-- C5 amended: `tokenizer` fails with the missing-version error exactly when
the lower-cased trimmed input does not have `v=spf1` as a prefix (so a first
token that merely extends `v=spf1` is accepted), fails with the no-terms
error exactly when the prefix holds but no token follows the first, and
succeeds with the tokens after the first otherwise; the fourth conjunct shows
the prefix test on the whole record is equivalent to the prefix test on its
first whitespace-separated token. -/
theorem tokenizer_version_prefix_characterization (raw : Str) :
    (tokenizer raw = .error .missingVersion ↔
      ¬ "v=spf1".data <+: toLowerGo (trimSpaceGo raw))
    ∧ (tokenizer raw = .error .noTerms ↔
      ("v=spf1".data <+: toLowerGo (trimSpaceGo raw)
        ∧ (fieldsGo (trimSpaceGo raw)).drop 1 = []))
    ∧ (∀ ts, tokenizer raw = .ok ts ↔
      ("v=spf1".data <+: toLowerGo (trimSpaceGo raw)
        ∧ (fieldsGo (trimSpaceGo raw)).drop 1 = ts ∧ ts ≠ []))
    ∧ (∀ t0 rest, fieldsGo (trimSpaceGo raw) = t0 :: rest →
      ("v=spf1".data <+: toLowerGo (trimSpaceGo raw) ↔
        "v=spf1".data <+: toLowerGo t0)) := by
  have hfirst : ∀ t0 rest, fieldsGo (trimSpaceGo raw) = t0 :: rest →
      ("v=spf1".data <+: toLowerGo (trimSpaceGo raw) ↔
        "v=spf1".data <+: toLowerGo t0) := by
    intro t0 rest hf
    cases htr : trimSpaceGo raw with
    | nil =>
      rw [htr] at hf
      cases hf
    | cons c cs =>
      have hc : isSpaceGo c = false := trimSpaceGo_head_not_space raw c cs htr
      rw [htr, fieldsGo_first c cs hc] at hf
      have ht0 : t0 = (c :: cs).takeWhile (fun x => !isSpaceGo x) := by
        rw [List.takeWhile_cons, if_pos (by simp [hc])]
        exact ((List.cons.injEq _ _ _ _).mp hf).1.symm
      rw [ht0]
      constructor
      · intro hpre
        exact prefix_toLower_takeWhile "v=spf1".data (c :: cs) (by decide) hpre
      · intro hpre
        exact hpre.trans ( List.IsPrefix.map Char.toLower ( List.takeWhile_prefix _))
  by_cases hp : "v=spf1".data <+: toLowerGo (trimSpaceGo raw)
  · have hb : hasPrefixGo (toLowerGo (trimSpaceGo raw)) "v=spf1".data = true := by
      rw [hasPrefixGo]
      exact List.isPrefixOf_iff_prefix.mpr hp
    by_cases hd : (fieldsGo (trimSpaceGo raw)).drop 1 = []
    · have hd' : (fieldsGo (trimSpaceGo raw)).tail = [] := by
        rw [← List.drop_one]
        exact hd
      have ht : tokenizer raw = .error .noTerms := by
        simp [tokenizer, hb, hd']
      refine ⟨?_, ?_, ?_, hfirst⟩
      · rw [ht]
        simp [hp]
      · rw [ht]
        simp [hp, hd]
      · intro ts
        rw [ht]
        constructor
        · intro hok
          exact Except.noConfusion hok
        · rintro ⟨-, h2, h3⟩
          rw [h2] at hd
          exact absurd hd h3
    · have hd' : ¬ (fieldsGo (trimSpaceGo raw)).tail = [] := by
        rw [← List.drop_one]
        exact hd
      have ht : tokenizer raw = .ok ((fieldsGo (trimSpaceGo raw)).drop 1) := by
        simp [tokenizer, hb, hd']
      refine ⟨?_, ?_, ?_, hfirst⟩
      · rw [ht]
        simp [hp]
      · rw [ht]
        simp [hp, hd']
      · intro ts
        rw [ht]
        constructor
        · intro hok
          have hts := Except.ok.inj hok
          exact ⟨hp, hts, by rw [← hts]; exact hd⟩
        · rintro ⟨-, h2, -⟩
          rw [h2]
  · have hbf : hasPrefixGo (toLowerGo (trimSpaceGo raw)) "v=spf1".data = false := by
      rw [hasPrefixGo]
      exact Bool.eq_false_iff.mpr fun hc => hp ( List.isPrefixOf_iff_prefix.mp hc)
    have ht : tokenizer raw = .error .missingVersion := by
      simp [tokenizer, hbf]
    refine ⟨?_, ?_, ?_, hfirst⟩
    · rw [ht]
      simp [hp]
    · rw [ht]
      simp [hp]
    · intro ts
      rw [ht]
      simp [hp]

/-- C5 witness: the characterization applied at the concrete record
`v=spf1x foo`, instantiating the first-token equivalence at its first
token. -/
theorem tokenizer_version_prefix_characterization_witness :
    ("v=spf1".data <+: toLowerGo (trimSpaceGo "v=spf1x foo".data) ↔
      "v=spf1".data <+: toLowerGo "v=spf1x".data) :=
  (tokenizer_version_prefix_characterization "v=spf1x foo".data).2.2.2
    "v=spf1x".data ["foo".data] (by decide)

/-! ## Claim C10: the mx parser's colon branch swallows everything -/

/-- The `toInt` helper only ever fails with the range error. -/
theorem toIntGo_error_eq (s : Str) (mx : Int) (e : MechErr)
    (h : toIntGo s mx = .error e) : e = .cidrOutOfRange := by
  unfold toIntGo at h
  split at h
  · exact (Except.error.inj h).symm
  · split at h
    · exact (Except.error.inj h).symm
    · exact Except.noConfusion h

/-- `parseMasks` only fails with the range error or the slash-count error. -/
theorem parseMasks_error_eq (m : Str) (e : MechErr)
    (h : parseMasks m = .error e) :
    e = .cidrOutOfRange ∨ e = .tooManySlashSegments := by
  unfold parseMasks at h
  split at h
  · split at h
    · rename_i e1 h1
      exact .inl ((Except.error.inj h).symm.trans (toIntGo_error_eq _ 32 e1 h1))
    · exact Except.noConfusion h
  · split at h
    · rename_i e1 h1
      exact .inl ((Except.error.inj h).symm.trans (toIntGo_error_eq _ 32 e1 h1))
    · split at h
      · rename_i e2 h2
        exact .inl ((Except.error.inj h).symm.trans (toIntGo_error_eq _ 128 e2 h2))
      · exact Except.noConfusion h
  · exact .inr (Except.error.inj h).symm

/-- The domain case of `parseMX` never produces the invalid-syntax error:
its failures are the bad-domain error or a mask error. -/
theorem mxDomainCase_ne_invalid (q : Qualifier) (a : Str) :
    mxDomainCase q a ≠ .error .invalidMXSyntax := by
  intro h
  unfold mxDomainCase at h
  split at h
  · split at h
    · exact absurd (Except.error.inj h) (by simp)
    · split at h
      · split at h
        · rename_i e hm
          have hinj := Except.error.inj h
          rcases parseMasks_error_eq _ _ hm with he | he <;>
            exact absurd (hinj.symm.trans he) (by simp)
        · exact Except.noConfusion h
      · exact Except.noConfusion h
  · split at h
    · split at h
      · rename_i e hm
        have hinj := Except.error.inj h
        rcases parseMasks_error_eq _ _ hm with he | he <;>
          exact absurd (hinj.symm.trans he) (by simp)
      · exact Except.noConfusion h
    · exact Except.noConfusion h

/-- C10 counterexample: the claim says a token `mx<rest>` (with `<rest>` not
starting in `:` or `/`) is accepted whenever the part of `<rest>` before the
optional `/` passes `ValidateDomain`; for `mxfoo.com/99` the domain
`foo.com` validates, yet the token is rejected because the mask `99` is out
of range. -/
theorem parseMX_maskfail_despite_valid_domain :
    parseMX '+' "mxfoo.com/99".data = .error .cidrOutOfRange
    ∧ ValidateDomain "foo.com".data = .ok "foo.com".data := by
  decide

/-- C10 amended: for every token `mx<rest>` with `<rest>` non-empty and
starting with neither `:` nor `/`, `parseMX` takes the colon branch (its
`strings.HasPrefix(spec, "")` guard is vacuously true): the part of `<rest>`
before an optional `/` is treated as an explicit domain, the token is
accepted exactly when that domain passes `ValidateDomain` and any mask
suffix parses as in-range masks, and the invalid-syntax branch is never
taken for any input whatsoever. -/
theorem parseMX_no_colon_takes_domain_branch (q : Qualifier) (spec : Str)
    (h1 : spec ≠ []) (h2 : spec.head? ≠ some ':') (h3 : spec.head? ≠ some '/') :
    (parseMX q ('m' :: 'x' :: spec)
      = (match ValidateDomain (goCut spec '/').1 with
         | .error _ => .error .badMXDomain
         | .ok _ =>
           if (goCut spec '/').2 ≠ [] then
             match parseMasks (goCut spec '/').2 with
             | .error e => .error e
             | .ok (m4, m6) =>
               .ok ⟨q, "mx".data, none, (goCut spec '/').1, m4, m6, []⟩
           else .ok ⟨q, "mx".data, none, (goCut spec '/').1, -1, -1, []⟩))
    ∧ ∀ (q' : Qualifier) (rest : Str), parseMX q' rest ≠ .error .invalidMXSyntax := by
  constructor
  · cases spec with
    | nil => exact absurd rfl h1
    | cons c cs =>
      have hc2 : c ≠ ':' := by
        intro h
        exact h2 (by rw [h]; rfl)
      have hc3 : c ≠ '/' := by
        intro h
        exact h3 (by rw [h]; rfl)
      have hslash : hasPrefixGo (c :: cs) "/".data = false := by
        have hb : ('/' == c) = false := beq_eq_false_iff_ne.mpr fun hh => hc3 hh.symm
        simp [hasPrefixGo, List.isPrefixOf, hb]
      have hcolon : hasPrefixGo (c :: cs) ":".data = false := by
        have hb : (':' == c) = false := beq_eq_false_iff_ne.mpr fun hh => hc2 hh.symm
        simp [hasPrefixGo, List.isPrefixOf, hb]
      have htp : trimPrefixGo (c :: cs) ":".data = c :: cs := by
        simp [trimPrefixGo, hcolon]
      have hcut : goCut (c :: cs) '/' = (c :: (goCut cs '/').1, (goCut cs '/').2) := by
        simp [goCut, hc3]
      have hd2 : List.drop 2 ('m' :: 'x' :: c :: cs) = c :: cs := rfl
      show parseMX q ('m' :: 'x' :: c :: cs) = _
      unfold parseMX mxDomainCase
      rw [hd2, hslash, htp, hcut]
      rfl
  · intro q' rest h
    unfold parseMX at h
    split at h
    · exact absurd (Except.error.inj h) (by simp)
    · split at h
      · exact Except.noConfusion h
      · split at h
        · split at h
          · rename_i e hm
            have hinj := Except.error.inj h
            rcases parseMasks_error_eq _ _ hm with he | he <;>
              exact absurd (hinj.symm.trans he) (by simp)
          · exact Except.noConfusion h
        · split at h
          · exact absurd h (mxDomainCase_ne_invalid _ _)
          · rename_i hguard
            exact hguard ( List.isPrefixOf_iff_prefix.mpr List.nil_prefix)

/-- C10 witness: the amended theorem applied at `mxexample.com`, yielding
the claim's own example (an mx mechanism with domain `example.com`). -/
theorem parseMX_no_colon_takes_domain_branch_witness :
    parseMX '+' ('m' :: 'x' :: "example.com".data)
      = .ok ⟨'+', "mx".data, none, "example.com".data, -1, -1, []⟩ :=
  ((parseMX_no_colon_takes_domain_branch '+' "example.com".data (by decide) (by decide)
    (by decide)).1).trans (by decide)

/-! ## Claim C9: parse order and per-kind fields -/

/-- Per-kind field discipline of a parsed `Mechanism`: the macro string is
never used by the five implemented parsers; the kind is one of the five
implemented keywords; an `all` mechanism carries only its qualifier and kind
(all other fields are Go zero values); `ip4`/`ip6` set the network and
nothing else; `a`/`mx` never set the network. -/
def mechShapeOK (m : Mechanism) : Prop :=
  match m with
  | ⟨_, kind, net, dom, m4, m6, mac⟩ =>
    mac = []
    ∧ (kind = "all".data ∨ kind = "ip4".data ∨ kind = "ip6".data
        ∨ kind = "a".data ∨ kind = "mx".data)
    ∧ (kind = "all".data → net = none ∧ dom = [] ∧ m4 = 0 ∧ m6 = 0)
    ∧ ((kind = "ip4".data ∨ kind = "ip6".data)
        → net.isSome = true ∧ dom = [] ∧ m4 = 0 ∧ m6 = 0)
    ∧ ((kind = "a".data ∨ kind = "mx".data) → net = none)

/-- Successful `parseAll` results are fully determined. -/
theorem parseAll_ok_shape (q : Qualifier) (rest : Str) (m : Mechanism)
    (h : parseAll q rest = .ok m) : m = ⟨q, "all".data, none, [], 0, 0, []⟩ := by
  unfold parseAll at h
  split at h
  · exact Except.noConfusion h
  · exact (Except.ok.inj h).symm

/-- Successful `parseIP4` results carry a network and nothing else. -/
theorem parseIP4_ok_shape (q : Qualifier) (rest : Str) (m : Mechanism)
    (h : parseIP4 q rest = .ok m) :
    ∃ n, m = ⟨q, "ip4".data, some n, [], 0, 0, []⟩ := by
  unfold parseIP4 at h
  split at h
  · exact Except.noConfusion h
  · split at h
    · exact Except.noConfusion h
    · split at h
      · exact Except.noConfusion h
      · split at h
        · exact Except.noConfusion h
        · exact ⟨_, (Except.ok.inj h).symm⟩

/-- Successful `parseIP6` results carry a network and nothing else. -/
theorem parseIP6_ok_shape (q : Qualifier) (rest : Str) (m : Mechanism)
    (h : parseIP6 q rest = .ok m) :
    ∃ n, m = ⟨q, "ip6".data, some n, [], 0, 0, []⟩ := by
  unfold parseIP6 at h
  split at h
  · exact Except.noConfusion h
  · split at h
    · exact Except.noConfusion h
    · split at h
      · exact Except.noConfusion h
      · split at h
        · exact Except.noConfusion h
        · exact ⟨_, (Except.ok.inj h).symm⟩

/-- Successful `parseA` results never carry a network or macro. -/
theorem parseA_ok_shape (q : Qualifier) (rest : Str) (m : Mechanism)
    (h : parseA q rest = .ok m) :
    ∃ d m4 m6, m = ⟨q, "a".data, none, d, m4, m6, []⟩ := by
  unfold parseA at h
  simp only [] at h
  split at h
  · exact Except.noConfusion h
  · split at h
    · exact ⟨_, _, _, (Except.ok.inj h).symm⟩
    · split at h
      · split at h
        · exact Except.noConfusion h
        · exact ⟨_, _, _, (Except.ok.inj h).symm⟩
      · split at h
        · split at h
          · exact Except.noConfusion h
          · split at h
            · split at h
              · exact Except.noConfusion h
              · exact ⟨_, _, _, (Except.ok.inj h).symm⟩
            · exact ⟨_, _, _, (Except.ok.inj h).symm⟩
        · exact Except.noConfusion h

/-- Successful `mxDomainCase` results never carry a network or macro. -/
theorem mxDomainCase_ok_shape (q : Qualifier) (a : Str) (m : Mechanism)
    (h : mxDomainCase q a = .ok m) :
    ∃ d m4 m6, m = ⟨q, "mx".data, none, d, m4, m6, []⟩ := by
  unfold mxDomainCase at h
  split at h
  · split at h
    · exact Except.noConfusion h
    · split at h
      · split at h
        · exact Except.noConfusion h
        · exact ⟨_, _, _, (Except.ok.inj h).symm⟩
      · exact ⟨_, _, _, (Except.ok.inj h).symm⟩
  · split at h
    · split at h
      · exact Except.noConfusion h
      · exact ⟨_, _, _, (Except.ok.inj h).symm⟩
    · exact ⟨_, _, _, (Except.ok.inj h).symm⟩

/-- Successful `parseMX` results never carry a network or macro. -/
theorem parseMX_ok_shape (q : Qualifier) (rest : Str) (m : Mechanism)
    (h : parseMX q rest = .ok m) :
    ∃ d m4 m6, m = ⟨q, "mx".data, none, d, m4, m6, []⟩ := by
  unfold parseMX at h
  split at h
  · exact Except.noConfusion h
  · split at h
    · exact ⟨_, _, _, (Except.ok.inj h).symm⟩
    · split at h
      · split at h
        · exact Except.noConfusion h
        · exact ⟨_, _, _, (Except.ok.inj h).symm⟩
      · split at h
        · exact mxDomainCase_ok_shape q _ m h
        · exact Except.noConfusion h

/-- Every mechanism produced by the dispatch loop satisfies the per-kind
field discipline. -/
theorem parseTerm_ok_shape (tok : Str) (m : Mechanism)
    (h : parseTerm tok = .ok m) : mechShapeOK m := by
  unfold parseTerm at h
  simp only [] at h
  split at h
  · rename_i m1 hm1
    obtain rfl := Except.ok.inj h
    rw [parseAll_ok_shape _ _ _ hm1]
    refine ⟨rfl, .inl rfl, fun _ => ⟨rfl, rfl, rfl, rfl⟩, ?_, ?_⟩ <;>
      · rintro (hk | hk) <;> exact absurd hk (by decide)
  · split at h
    · rename_i m1 hm1
      obtain rfl := Except.ok.inj h
      obtain ⟨n, rfl⟩ := parseIP4_ok_shape _ _ _ hm1
      refine ⟨rfl, .inr (.inl rfl), fun hk => absurd hk (by decide), ?_, ?_⟩
      · exact fun _ => ⟨rfl, rfl, rfl, rfl⟩
      · rintro (hk | hk) <;> exact absurd hk (by decide)
    · split at h
      · rename_i m1 hm1
        obtain rfl := Except.ok.inj h
        obtain ⟨n, rfl⟩ := parseIP6_ok_shape _ _ _ hm1
        refine ⟨rfl, .inr (.inr (.inl rfl)), fun hk => absurd hk (by decide), ?_, ?_⟩
        · exact fun _ => ⟨rfl, rfl, rfl, rfl⟩
        · rintro (hk | hk) <;> exact absurd hk (by decide)
      · split at h
        · rename_i m1 hm1
          obtain rfl := Except.ok.inj h
          obtain ⟨d, m4, m6, rfl⟩ := parseA_ok_shape _ _ _ hm1
          refine ⟨rfl, .inr (.inr (.inr (.inl rfl))), fun hk => absurd hk (by decide),
            ?_, fun _ => rfl⟩
          rintro (hk | hk) <;> exact absurd hk (by decide)
        · obtain ⟨d, m4, m6, rfl⟩ := parseMX_ok_shape _ _ _ h
          refine ⟨rfl, .inr (.inr (.inr (.inr rfl))), fun hk => absurd hk (by decide),
            ?_, fun _ => rfl⟩
          rintro (hk | hk) <;> exact absurd hk (by decide)

/-- The term loop appends the parse of each token, in order, to the
accumulator, and never touches the modifier slots. -/
theorem parseLoop_spec (toks : List Str) :
    ∀ acc rec : Record, parseLoop toks acc = .ok rec →
      rec.Redirect = acc.Redirect ∧ rec.Exp = acc.Exp ∧ rec.Unknown = acc.Unknown
      ∧ ∃ ms, rec.Mechs = acc.Mechs ++ ms
          ∧ List.Forall₂ (fun tok mech => parseTerm tok = .ok mech) toks ms := by
  induction toks with
  | nil =>
    intro acc rec h
    unfold parseLoop at h
    obtain rfl := Except.ok.inj h
    exact ⟨rfl, rfl, rfl, [], by simp, .nil⟩
  | cons t ts ih =>
    intro acc rec h
    unfold parseLoop at h
    split at h
    · exact Except.noConfusion h
    · rename_i mech hm
      obtain ⟨h1, h2, h3, ms, hms, hall⟩ := ih _ _ h
      refine ⟨h1, h2, h3, mech :: ms, ?_, .cons hm hall⟩
      rw [hms]
      simp

/-- Members of the right list of a `Forall₂` are relata of some member of
the left list. -/
theorem forall₂_exists_left {R : Str → Mechanism → Prop} :
    ∀ {l1 : List Str} {l2 : List Mechanism}, List.Forall₂ R l1 l2 →
      ∀ {b}, b ∈ l2 → ∃ a, a ∈ l1 ∧ R a b := by
  intro l1 l2 h
  induction h with
  | nil =>
    intro b hb
    cases hb
  | cons hr _ ih =>
    intro b hb
    rcases List.mem_cons.mp hb with rfl | hb
    · exact ⟨_, List.mem_cons_self _ _, hr⟩
    · obtain ⟨a, ha, hab⟩ := ih hb
      exact ⟨a, List.mem_cons_of_mem _ ha, hab⟩

/-- C9: for every raw TXT string `Parse` accepts, `Record.Mechs` lists the
parses of the record's terms in exactly their input order (`Forall₂` against
the token list), and every mechanism obeys the per-kind field discipline
(`Net` only for ip4/ip6, `Domain`/masks only for a/mx, macro never set). -/
theorem parse_preserves_order_and_fields (raw : Str) (rec : Record)
    (h : Parse raw = .ok rec) :
    (∃ toks, tokenizer raw = .ok toks
      ∧ List.Forall₂ (fun tok mech => parseTerm tok = .ok mech) toks rec.Mechs)
    ∧ ∀ mech ∈ rec.Mechs, mechShapeOK mech := by
  unfold Parse at h
  cases ht : tokenizer raw with
  | error e =>
    rw [ht] at h
    exact Except.noConfusion h
  | ok toks =>
    rw [ht] at h
    obtain ⟨-, -, -, ms, hms, hall⟩ := parseLoop_spec toks _ _ h
    rw [List.nil_append] at hms
    subst hms
    refine ⟨⟨toks, rfl, hall⟩, ?_⟩
    intro mech hmech
    obtain ⟨tok, -, htm⟩ := forall₂_exists_left hall hmech
    exact parseTerm_ok_shape tok mech htm

/-- C9 witness: the theorem applied to a record exercising three mechanism
kinds. -/
theorem parse_preserves_order_and_fields_witness :
    ∃ rec, Parse "v=spf1 ip4:192.0.2.0/24 -all".data = .ok rec
      ∧ ((∃ toks, tokenizer "v=spf1 ip4:192.0.2.0/24 -all".data = .ok toks
          ∧ List.Forall₂ (fun tok mech => parseTerm tok = .ok mech) toks rec.Mechs)
        ∧ ∀ mech ∈ rec.Mechs, mechShapeOK mech) :=
  ⟨⟨[⟨'+', "ip4".data, some ⟨.v4 [192, 0, 2, 0], 24, 32⟩, [], 0, 0, []⟩,
      ⟨'-', "all".data, none, [], 0, 0, []⟩], none, none, []⟩,
    by decide,
    parse_preserves_order_and_fields "v=spf1 ip4:192.0.2.0/24 -all".data _ (by decide)⟩

/-! ## Claim C6: address-family mismatch and prefix range in ip4/ip6 -/

/-- A dotted-quad field containing a non-digit never parses. -/
theorem parseV4Field_none_of_mem {p : Str} {c : Char} (hc : c ∈ p)
    (hnd : isDigitGo c = false) : parseV4Field p = none := by
  have hall : p.all isDigitGo = false := List.all_eq_false.mpr ⟨c, hc, by simp [hnd]⟩
  have hne : p ≠ [] := List.ne_nil_of_mem hc
  simp [parseV4Field, hne, hall]

/-- An IPv4 literal candidate containing a non-digit, non-dot character never
parses. -/
theorem parseIPv4go_none_of_bad_char {a : Str} {c : Char} (hm : c ∈ a)
    (hnd : isDigitGo c = false) (hdot : c ≠ '.') : parseIPv4go a = none := by
  obtain ⟨l, hl, hcl⟩ := exists_part_of_mem_splitOnCharGo hm hdot
  have hnone : parseV4Field l = none := parseV4Field_none_of_mem hcl hnd
  unfold parseIPv4go
  split
  · rename_i p1 p2 p3 p4 hsp
    rw [hsp] at hl
    simp only [List.mem_cons, List.not_mem_nil, or_false] at hl
    cases h1 : parseV4Field p1 <;> cases h2 : parseV4Field p2 <;>
      cases h3 : parseV4Field p3 <;> cases h4 : parseV4Field p4 <;>
      first
        | rfl
        | (rcases hl with rfl | rfl | rfl | rfl <;> simp_all)
  · rfl

/-- Characters of a successfully parsed IPv4 literal are digits or dots. -/
theorem parseIPv4go_chars {a : Str} {b : List Nat} (h : parseIPv4go a = some b) :
    ∀ c ∈ a, isDigitGo c = true ∨ c = '.' := by
  intro c hc
  by_cases hdig : isDigitGo c = true
  · exact .inl hdig
  · by_cases hdot : c = '.'
    · exact .inr hdot
    · rw [parseIPv4go_none_of_bad_char hc (Bool.eq_false_iff.mpr hdig) hdot] at h
      exact Option.noConfusion h

/-- A successfully parsed IPv4 literal contains no slash. -/
theorem parseIPv4go_no_slash {a : Str} {b : List Nat} (h : parseIPv4go a = some b) :
    '/' ∉ a := by
  intro hm
  rcases parseIPv4go_chars h '/' hm with hdig | hdot
  · exact absurd hdig (by decide)
  · exact absurd hdot (by decide)

/-- Cutting an appended string at its separator recovers the parts. -/
theorem goCut_append {a m : Str} (h : '/' ∉ a) : goCut (a ++ '/' :: m) '/' = (a, m) := by
  induction a with
  | nil => simp [goCut]
  | cons c cs ih =>
    have hc : c ≠ '/' := fun hh => h (hh ▸ List.mem_cons_self _ _)
    have hcs : '/' ∉ cs := fun hm => h (List.mem_cons_of_mem _ hm)
    simp [goCut, hc, ih hcs]

/-- Membership characterization of `containsRuneGo`. -/
theorem containsRuneGo_eq_true {s : Str} {c : Char} (h : c ∈ s) :
    containsRuneGo s c = true := by
  simp [containsRuneGo, List.contains, h]

/-- Absence characterization of `containsRuneGo`. -/
theorem containsRuneGo_eq_false {s : Str} {c : Char} (h : c ∉ s) :
    containsRuneGo s c = false := by
  simp [containsRuneGo, List.contains, h]

/-- Prefixes are recognized on appended strings. -/
theorem hasPrefixGo_append (p s : Str) : hasPrefixGo (p ++ s) p = true :=
  List.isPrefixOf_iff_prefix.mpr ⟨s, rfl⟩

/-- Trimming a prefix off an appended string leaves the rest. -/
theorem trimPrefixGo_append (p s : Str) : trimPrefixGo (p ++ s) p = s := by
  unfold trimPrefixGo
  rw [if_pos (hasPrefixGo_append p s), List.drop_left]

/-- `withDefaultMask` appends the default when the argument has no slash. -/
theorem withDefaultMask_no_slash {a : Str} (d : Str) (h : '/' ∉ a) :
    withDefaultMask a d = a ++ d := by
  simp [withDefaultMask, containsRuneGo_eq_false h]

/-- `withDefaultMask` leaves an argument that already has a slash alone. -/
theorem withDefaultMask_has_slash {a m : Str} (d : Str) :
    withDefaultMask (a ++ '/' :: m) d = a ++ '/' :: m := by
  have hc : containsRuneGo (a ++ '/' :: m) '/' = true :=
    containsRuneGo_eq_true (List.mem_append_right _ (List.mem_cons_self _ _))
  simp [withDefaultMask, hc]

/-- `goParseCIDR` on `addr ++ "/" ++ mask` with a slash-free address
dispatches on the address family (IPv4 first) and checks the mask against
the family's bit width. -/
theorem goParseCIDR_split (addr mask : Str) (h : '/' ∉ addr) :
    goParseCIDR (addr ++ '/' :: mask)
      = (match parseIPv4go addr with
         | some b =>
           match goDtoiFull mask with
           | some n => if n ≤ 32 then some (.v4 b, ⟨maskAddr (.v4 b) n, n, 32⟩) else none
           | none => none
         | none =>
           match parseIPv6go addr with
           | some g =>
             match goDtoiFull mask with
             | some n =>
               if n ≤ 128 then some (.v6 g, ⟨maskAddr (.v6 g) n, n, 128⟩) else none
             | none => none
           | none => none) := by
  have hc : containsRuneGo (addr ++ '/' :: mask) '/' = true :=
    containsRuneGo_eq_true (List.mem_append_right _ (List.mem_cons_self _ _))
  unfold goParseCIDR
  rw [hc, goCut_append h]
  rfl

/-- The CIDR-failure case of `parseIP4`. -/
theorem parseIP4_of_cidr_none (q : Qualifier) (rest : Str)
    (hpre : hasPrefixGo rest "ip4:".data = true)
    (h : goParseCIDR (withDefaultMask (trimPrefixGo rest "ip4:".data) "/32".data) = none) :
    parseIP4 q rest = .error .badIPCidr := by
  unfold parseIP4
  rw [if_neg (by simp [hpre]), h]

/-- The To4-failure case of `parseIP4`: the parsed address is not
IPv4-representable. -/
theorem parseIP4_of_to4_none (q : Qualifier) (rest : Str) (ip : IPAddr) (netw : IPNet)
    (hpre : hasPrefixGo rest "ip4:".data = true)
    (h : goParseCIDR (withDefaultMask (trimPrefixGo rest "ip4:".data) "/32".data)
      = some (ip, netw))
    (hto : ipTo4 ip = none) :
    parseIP4 q rest = .error .badIPCidr := by
  unfold parseIP4
  rw [if_neg (by simp [hpre]), h]
  simp only [hto, if_pos]

/-- The CIDR-failure case of `parseIP6`. -/
theorem parseIP6_of_cidr_none (q : Qualifier) (rest : Str)
    (hpre : hasPrefixGo rest "ip6:".data = true)
    (h : goParseCIDR (withDefaultMask (trimPrefixGo rest "ip6:".data) "/128".data) = none) :
    parseIP6 q rest = .error .badIPCidr := by
  unfold parseIP6
  rw [if_neg (by simp [hpre]), h]

/-- The To4-success case of `parseIP6`: the parsed address is
IPv4-representable, which `parseIP6` rejects. -/
theorem parseIP6_of_to4_some (q : Qualifier) (rest : Str) (ip : IPAddr) (netw : IPNet)
    (hpre : hasPrefixGo rest "ip6:".data = true)
    (h : goParseCIDR (withDefaultMask (trimPrefixGo rest "ip6:".data) "/128".data)
      = some (ip, netw))
    (hto : ipTo4 ip ≠ none) :
    parseIP6 q rest = .error .badIPCidr := by
  unfold parseIP6
  rw [if_neg (by simp [hpre]), h]
  cases hip : ipTo4 ip with
  | none => exact absurd hip hto
  | some b => simp [hip]

/-- C6: the `ip4` mechanism rejects every IPv6 literal address argument
(IPv4-mapped `::ffff:a.b.c.d` forms count as IPv4 per the claim), the `ip6`
mechanism rejects every IPv4 literal including IPv4-mapped forms, and an
out-of-range prefix length (over 32 for ip4, over 128 for ip6) is a parse
failure — in each case the `bad ipcidr` parse error of spf.go lines 348-349
and 377-378.  IPv6/IPv4 literals are characterized by the Go `net` address
parser models; the `:` and `/` hypotheses are facts of every IPv6 literal. -/
theorem ip_mechanisms_reject_family_mismatch_and_bad_masklen :
    (∀ (q : Qualifier) (a : Str) (g : List Nat),
      parseIPv6go a = some g → ipTo4 (.v6 g) = none → ':' ∈ a → '/' ∉ a →
        parseIP4 q ("ip4:".data ++ a) = .error .badIPCidr
        ∧ ∀ m : Str, parseIP4 q ("ip4:".data ++ (a ++ '/' :: m)) = .error .badIPCidr)
    ∧ (∀ (q : Qualifier) (a : Str) (b : List Nat),
      parseIPv4go a = some b →
        parseIP6 q ("ip6:".data ++ a) = .error .badIPCidr
        ∧ ∀ m : Str, parseIP6 q ("ip6:".data ++ (a ++ '/' :: m)) = .error .badIPCidr)
    ∧ (∀ (q : Qualifier) (a : Str) (g : List Nat),
      parseIPv6go a = some g → ipTo4 (.v6 g) ≠ none → ':' ∈ a → '/' ∉ a →
        parseIP6 q ("ip6:".data ++ a) = .error .badIPCidr
        ∧ ∀ m : Str, parseIP6 q ("ip6:".data ++ (a ++ '/' :: m)) = .error .badIPCidr)
    ∧ (∀ (q : Qualifier) (a : Str) (b : List Nat) (m : Str),
      parseIPv4go a = some b → m ≠ [] → m.all isDigitGo = true → 32 < digitsToNat m →
        parseIP4 q ("ip4:".data ++ (a ++ '/' :: m)) = .error .badIPCidr)
    ∧ (∀ (q : Qualifier) (a : Str) (g : List Nat) (m : Str),
      parseIPv6go a = some g → ':' ∈ a → '/' ∉ a → m ≠ [] → m.all isDigitGo = true
        → 128 < digitsToNat m →
        parseIP6 q ("ip6:".data ++ (a ++ '/' :: m)) = .error .badIPCidr) := by
  have hdtoi : ∀ m : Str, m ≠ [] → m.all isDigitGo = true →
      goDtoiFull m = if digitsToNat m < 0xFFFFFF then some (digitsToNat m) else none := by
    intro m h0 hd
    simp [goDtoiFull, h0, hd]
  refine ⟨?_, ?_, ?_, ?_, ?_⟩
  · intro q a g h6 hto hc hs
    have hp4 : parseIPv4go a = none :=
      parseIPv4go_none_of_bad_char hc (by decide) (by decide)
    constructor
    · have hcidr : goParseCIDR (withDefaultMask a "/32".data)
          = some (.v6 g, ⟨maskAddr (.v6 g) 32, 32, 128⟩) := by
        rw [withDefaultMask_no_slash _ hs,
          show a ++ "/32".data = a ++ '/' :: "32".data from rfl,
          goParseCIDR_split a "32".data hs, hp4, h6]
        rfl
      exact parseIP4_of_to4_none q _ _ _ (hasPrefixGo_append _ _)
        (by rw [trimPrefixGo_append]; exact hcidr) hto
    · intro m
      have hsplit := goParseCIDR_split a m hs
      rw [hp4, h6] at hsplit
      cases hdm : goDtoiFull m with
      | none =>
        rw [hdm] at hsplit
        simp only [] at hsplit
        exact parseIP4_of_cidr_none q _ (hasPrefixGo_append _ _)
          (by rw [trimPrefixGo_append, withDefaultMask_has_slash]; exact hsplit)
      | some n =>
        rw [hdm] at hsplit
        simp only [] at hsplit
        by_cases hn : n ≤ 128
        · rw [if_pos hn] at hsplit
          exact parseIP4_of_to4_none q _ _ _ (hasPrefixGo_append _ _)
            (by rw [trimPrefixGo_append, withDefaultMask_has_slash]; exact hsplit) hto
        · rw [if_neg hn] at hsplit
          exact parseIP4_of_cidr_none q _ (hasPrefixGo_append _ _)
            (by rw [trimPrefixGo_append, withDefaultMask_has_slash]; exact hsplit)
  · intro q a b hp4s
    have hs : '/' ∉ a := parseIPv4go_no_slash hp4s
    have hto4 : ipTo4 (.v4 b) ≠ none := by simp [ipTo4]
    constructor
    · have hcidr : goParseCIDR (withDefaultMask a "/128".data) = none := by
        rw [withDefaultMask_no_slash _ hs,
          show a ++ "/128".data = a ++ '/' :: "128".data from rfl,
          goParseCIDR_split a "128".data hs, hp4s]
        rfl
      exact parseIP6_of_cidr_none q _ (hasPrefixGo_append _ _)
        (by rw [trimPrefixGo_append]; exact hcidr)
    · intro m
      have hsplit := goParseCIDR_split a m hs
      rw [hp4s] at hsplit
      cases hdm : goDtoiFull m with
      | none =>
        rw [hdm] at hsplit
        simp only [] at hsplit
        exact parseIP6_of_cidr_none q _ (hasPrefixGo_append _ _)
          (by rw [trimPrefixGo_append, withDefaultMask_has_slash]; exact hsplit)
      | some n =>
        rw [hdm] at hsplit
        simp only [] at hsplit
        by_cases hn : n ≤ 32
        · rw [if_pos hn] at hsplit
          exact parseIP6_of_to4_some q _ _ _ (hasPrefixGo_append _ _)
            (by rw [trimPrefixGo_append, withDefaultMask_has_slash]; exact hsplit) hto4
        · rw [if_neg hn] at hsplit
          exact parseIP6_of_cidr_none q _ (hasPrefixGo_append _ _)
            (by rw [trimPrefixGo_append, withDefaultMask_has_slash]; exact hsplit)
  · intro q a g h6 hto hc hs
    have hp4 : parseIPv4go a = none :=
      parseIPv4go_none_of_bad_char hc (by decide) (by decide)
    constructor
    · have hcidr : goParseCIDR (withDefaultMask a "/128".data)
          = some (.v6 g, ⟨maskAddr (.v6 g) 128, 128, 128⟩) := by
        rw [withDefaultMask_no_slash _ hs,
          show a ++ "/128".data = a ++ '/' :: "128".data from rfl,
          goParseCIDR_split a "128".data hs, hp4, h6]
        rfl
      exact parseIP6_of_to4_some q _ _ _ (hasPrefixGo_append _ _)
        (by rw [trimPrefixGo_append]; exact hcidr) hto
    · intro m
      have hsplit := goParseCIDR_split a m hs
      rw [hp4, h6] at hsplit
      cases hdm : goDtoiFull m with
      | none =>
        rw [hdm] at hsplit
        simp only [] at hsplit
        exact parseIP6_of_cidr_none q _ (hasPrefixGo_append _ _)
          (by rw [trimPrefixGo_append, withDefaultMask_has_slash]; exact hsplit)
      | some n =>
        rw [hdm] at hsplit
        simp only [] at hsplit
        by_cases hn : n ≤ 128
        · rw [if_pos hn] at hsplit
          exact parseIP6_of_to4_some q _ _ _ (hasPrefixGo_append _ _)
            (by rw [trimPrefixGo_append, withDefaultMask_has_slash]; exact hsplit) hto
        · rw [if_neg hn] at hsplit
          exact parseIP6_of_cidr_none q _ (hasPrefixGo_append _ _)
            (by rw [trimPrefixGo_append, withDefaultMask_has_slash]; exact hsplit)
  · intro q a b m hp4s hm0 hmd hm32
    have hs : '/' ∉ a := parseIPv4go_no_slash hp4s
    have hcidr : goParseCIDR (a ++ '/' :: m) = none := by
      rw [goParseCIDR_split a m hs, hp4s]
      by_cases hbig : digitsToNat m < 0xFFFFFF
      · rw [show goDtoiFull m = some (digitsToNat m) by rw [hdtoi m hm0 hmd, if_pos hbig]]
        simp only []
        rw [if_neg (by omega : ¬ digitsToNat m ≤ 32)]
      · rw [show goDtoiFull m = none by rw [hdtoi m hm0 hmd, if_neg hbig]]
    exact parseIP4_of_cidr_none q _ (hasPrefixGo_append _ _)
      (by rw [trimPrefixGo_append, withDefaultMask_has_slash]; exact hcidr)
  · intro q a g m h6 hc hs hm0 hmd hm128
    have hp4 : parseIPv4go a = none :=
      parseIPv4go_none_of_bad_char hc (by decide) (by decide)
    have hcidr : goParseCIDR (a ++ '/' :: m) = none := by
      rw [goParseCIDR_split a m hs, hp4, h6]
      by_cases hbig : digitsToNat m < 0xFFFFFF
      · rw [show goDtoiFull m = some (digitsToNat m) by rw [hdtoi m hm0 hmd, if_pos hbig]]
        simp only []
        rw [if_neg (by omega : ¬ digitsToNat m ≤ 128)]
      · rw [show goDtoiFull m = none by rw [hdtoi m hm0 hmd, if_neg hbig]]
    exact parseIP6_of_cidr_none q _ (hasPrefixGo_append _ _)
      (by rw [trimPrefixGo_append, withDefaultMask_has_slash]; exact hcidr)

/-- C6 witness: the theorem instantiated at concrete literals: `ip4:1::2`
(an IPv6 literal given to ip4), `ip6:1.2.3.4` and `ip6:::ffff:192.0.2.1` (an
IPv4 literal and its IPv4-mapped form given to ip6), and the out-of-range
prefix lengths `/33` for ip4 and `/129` for ip6. -/
theorem ip_mechanisms_reject_family_mismatch_and_bad_masklen_witness :
    parseIP4 '+' ("ip4:".data ++ "1::2".data) = .error .badIPCidr
    ∧ parseIP6 '+' ("ip6:".data ++ "1.2.3.4".data) = .error .badIPCidr
    ∧ parseIP6 '+' ("ip6:".data ++ "::ffff:192.0.2.1".data) = .error .badIPCidr
    ∧ parseIP4 '+' ("ip4:".data ++ ("1.2.3.4".data ++ '/' :: "33".data)) = .error .badIPCidr
    ∧ parseIP6 '+' ("ip6:".data ++ ("1::2".data ++ '/' :: "129".data))
        = .error .badIPCidr :=
  ⟨(ip_mechanisms_reject_family_mismatch_and_bad_masklen.1 '+' "1::2".data
      [1, 0, 0, 0, 0, 0, 0, 2] (by decide) (by decide) (by decide) (by decide)).1,
    (ip_mechanisms_reject_family_mismatch_and_bad_masklen.2.1 '+' "1.2.3.4".data
      [1, 2, 3, 4] (by decide)).1,
    (ip_mechanisms_reject_family_mismatch_and_bad_masklen.2.2.1 '+' "::ffff:192.0.2.1".data
      [0, 0, 0, 0, 0, 0xffff, 0xc000, 0x0201] (by decide) (by decide) (by decide)
      (by decide)).1,
    ip_mechanisms_reject_family_mismatch_and_bad_masklen.2.2.2.1 '+' "1.2.3.4".data
      [1, 2, 3, 4] "33".data (by decide) (by decide) (by decide) (by decide),
    ip_mechanisms_reject_family_mismatch_and_bad_masklen.2.2.2.2 '+' "1::2".data
      [1, 0, 0, 0, 0, 0, 0, 2] "129".data (by decide) (by decide) (by decide) (by decide)
      (by decide) (by decide)⟩

/-! ## Claim C8: malformed domains short-circuit before any DNS lookup -/

/-- C8: every domain rejected by `ValidateDomain` makes `CheckHost` return
Code=None with the matching sentinel as Cause and a nil transport error,
issuing zero DNS lookups (spf.go lines 79-84 return before the record
fetch). -/
theorem checkHost_invalid_domain_no_lookup (r : Resolver) (ip : IPAddr)
    (domain sender : Str) (e : DomainErr) (h : ValidateDomain domain = .error e) :
    CheckHost r ip domain sender = ((⟨resNone, some (.dom e)⟩, none), 0) := by
  unfold CheckHost
  rw [h]

/-- C8 witness: the single-label domain `localhost` is rejected with
`ErrSingleLabel` and the theorem applies. -/
theorem checkHost_invalid_domain_no_lookup_witness :
    ValidateDomain "localhost".data = .error DomainErr.singleLabel
    ∧ CheckHost (fun _ => .notfound) (.v4 [1, 2, 3, 4]) "localhost".data "x".data
      = ((⟨resNone, some (.dom .singleLabel)⟩, none), 0) :=
  ⟨by decide,
    checkHost_invalid_domain_no_lookup (fun _ => .notfound) (.v4 [1, 2, 3, 4])
      "localhost".data "x".data DomainErr.singleLabel (by decide)⟩

end SPF
